import Mathlib

/-
Verification of the zoning-ordinance RAG pipeline (chunker, query cache,
answer templates, query expander and query engine).

Modelling conventions, used consistently below:
* Python strings are Lean `String`s; character-level operations are carried
  out on `String.toList` with structural recursion so that every definition
  is executable by the kernel.
* A document is split into lines (`str.split('\n')`); a chunk's `text` field
  is kept as the list of its lines.  The source stores `'\n'.join(lines)`;
  since no line contains a newline the two representations are related by an
  invertible join, and functions that the source applies to the joined text
  (`detect_category`) receive the joined string.
* Token counting (`tiktoken`) is an external collaborator and is a parameter
  `tok : String -> Nat` of the chunker.
* The hand-written scanners (`findSec`, `findArt`, ...) are the hand
  compilation of the source's regular expressions; each one is documented
  with the regex it implements.
-/

/-! ### Python string primitives -/

/-- Characters Python's `str.split()` treats as separators (space, tab,
newline, carriage return). -/
def wsChar (c : Char) : Bool := c.isWhitespace

/-- Python `str.lower()` on a character list (ASCII letters). -/
def pyLowerChars (l : List Char) : List Char := l.map Char.toLower

/-- Python `str.lower()`. -/
def pyLower (s : String) : String := String.mk (pyLowerChars s.toList)

/-- Python `str.strip()` on a character list. -/
def trimChars (l : List Char) : List Char :=
  ((l.dropWhile wsChar).reverse.dropWhile wsChar).reverse

/-- Python `str.strip()`. -/
def pyStrip (s : String) : String := String.mk (trimChars s.toList)

/-- Does the second list start with the first one? -/
def startsChars : List Char → List Char → Bool
  | [], _ => true
  | _ :: _, [] => false
  | a :: as, b :: bs => a == b && startsChars as bs

/-- Substring test: Python's `needle in hay`. -/
def hasSubChars (n : List Char) : List Char → Bool
  | [] => n.isEmpty
  | b :: bs => startsChars n (b :: bs) || hasSubChars n bs

/-- Python's `needle in hay` on strings. -/
def pyIn (needle hay : String) : Bool := hasSubChars needle.toList hay.toList

/-- Helper for `splitWSChars`: accumulates the current word reversed. -/
def splitWSAux : List Char → List Char → List (List Char)
  | [], acc => if acc.isEmpty then [] else [acc.reverse]
  | c :: cs, acc =>
    if wsChar c then
      if acc.isEmpty then splitWSAux cs [] else acc.reverse :: splitWSAux cs []
    else splitWSAux cs (c :: acc)

/-- Python `str.split()` (split on whitespace runs, dropping empty pieces). -/
def splitWSChars (l : List Char) : List (List Char) := splitWSAux l []

/-- Python `str.split()` on strings. -/
def pySplit (s : String) : List String := (splitWSChars s.toList).map String.mk

/-- Helper for `splitNLChars`. -/
def splitNLAux : List Char → List Char → List (List Char)
  | [], acc => [acc.reverse]
  | c :: cs, acc =>
    if c == '\n' then acc.reverse :: splitNLAux cs [] else splitNLAux cs (c :: acc)

/-- Python `str.split('\n')` (keeps empty pieces). -/
def splitNLChars (l : List Char) : List (List Char) := splitNLAux l []

/-- Python `str.split('\n')` on strings. -/
def pySplitLines (s : String) : List String := (splitNLChars s.toList).map String.mk

/-- Join words with a single space (`' '.join`). -/
def joinSpChars : List (List Char) → List Char
  | [] => []
  | [w] => w
  | w :: ws => w ++ ' ' :: joinSpChars ws

/-- Join lines with a newline (`'\n'.join`) on character lists. -/
def joinNLChars : List (List Char) → List Char
  | [] => []
  | [w] => w
  | w :: ws => w ++ '\n' :: joinNLChars ws

/-- Python `'\n'.join(lines)`. -/
def joinLines (ls : List String) : String := String.mk (joinNLChars (ls.map String.toList))

/-! ### ChunkingEngine (src/rag/chunker.py) -/

/-- Case-insensitive literal match at the front of the input; returns the
rest of the input on success.  The pattern is given in lower case. -/
def matchCIRest : List Char → List Char → Option (List Char)
  | [], rest => some rest
  | _ :: _, [] => none
  | p :: ps, c :: cs => if p == c.toLower then matchCIRest ps cs else none

/-- Attempt of the regex `Section\s+(\d+-\d+)` (IGNORECASE) anchored at the
current position; returns the captured group `\d+-\d+`. -/
def secAt (l : List Char) : Option (List Char) :=
  match matchCIRest "section".toList l with
  | none => none
  | some r0 =>
    if (r0.takeWhile wsChar).isEmpty then none else
    let r1 := r0.dropWhile wsChar
    let d1 := r1.takeWhile Char.isDigit
    if d1.isEmpty then none else
    match r1.dropWhile Char.isDigit with
    | '-' :: r2 =>
      let d2 := r2.takeWhile Char.isDigit
      if d2.isEmpty then none else some (d1 ++ '-' :: d2)
    | _ => none

/-- `re.search` of `Section\s+(\d+-\d+)` (IGNORECASE): leftmost match. -/
def findSec : List Char → Option (List Char)
  | [] => none
  | c :: cs =>
    match secAt (c :: cs) with
    | some g => some g
    | none => findSec cs

/-- `section_pattern.search(s)`, returning the captured section number. -/
def secSearch (s : String) : Option String := (findSec s.toList).map String.mk

/-- Attempt of the regex `Article\s+(\d+)` (IGNORECASE) anchored here. -/
def artAt (l : List Char) : Option (List Char) :=
  match matchCIRest "article".toList l with
  | none => none
  | some r0 =>
    if (r0.takeWhile wsChar).isEmpty then none else
    let r1 := r0.dropWhile wsChar
    let d1 := r1.takeWhile Char.isDigit
    if d1.isEmpty then none else some d1

/-- `re.search` of `Article\s+(\d+)` (IGNORECASE): leftmost match. -/
def findArt : List Char → Option (List Char)
  | [] => none
  | c :: cs =>
    match artAt (c :: cs) with
    | some g => some g
    | none => findArt cs

/-- `article_pattern.search(s)`, returning the captured article number. -/
def artSearch (s : String) : Option String := (findArt s.toList).map String.mk

/-- The 8 fixed category keyword sets of `OrdinanceChunker.category_keywords`,
in dict insertion order. -/
def category_keywords : List (String × List String) :=
  [("setback", ["setback", "yard", "distance", "feet from", "property line", "boundary"]),
   ("permit", ["permit", "approval", "certificate", "application", "license", "authorization"]),
   ("use", ["permitted use", "allowed use", "conditional use", "special exception", "prohibited"]),
   ("livestock", ["animal", "livestock", "poultry", "horse", "chicken", "fowl", "cattle", "sheep"]),
   ("structure", ["building", "structure", "accessory", "shed", "barn", "garage", "dwelling"]),
   ("density", ["density", "lot size", "minimum area", "acre", "square feet"]),
   ("height", ["height", "stories", "feet tall", "maximum height"]),
   ("parking", ["parking", "vehicle", "driveway", "garage"])]

/-- `OrdinanceChunker.detect_category`: keyword hit counts per category; the
category with the most hits wins, ties resolved by encounter order (Python's
`max(dict, key=dict.get)` keeps the first maximal key); no hits gives
`"general"`. -/
def detect_category (text : String) : String :=
  let tl := pyLower text
  let scored := (category_keywords.map
      (fun p => (p.1, p.2.countP (fun kw => pyIn kw tl)))).filter (fun p => 0 < p.2)
  match scored with
  | [] => "general"
  | p :: rest => (rest.foldl (fun best q => if best.2 < q.2 then q else best) p).1

/-- `OrdinanceChunker.has_tables`: more than 3 lines contain a tab or two
consecutive spaces.  The source splits the joined chunk text back into
lines; here the chunk keeps its line list. -/
def chunkHasTables (lines : List String) : Bool :=
  3 < lines.countP (fun l => pyIn "\t" l || pyIn "  " l)

/-- One line matches one of the `has_lists` patterns `^\s*\d+\.`,
`^\s*\([a-z]\)`, `^\s*[•·\-\*]` (with MULTILINE, a match of any of these
exists iff some line, after its leading whitespace, starts this way, since
none of the pattern cores can contain a newline). -/
def listLineHit (l : List Char) : Bool :=
  let t := l.dropWhile wsChar
  (!(t.takeWhile Char.isDigit).isEmpty && startsChars ['.'] (t.dropWhile Char.isDigit))
  || (match t with
      | '(' :: c :: ')' :: _ => c.isLower
      | _ => false)
  || (match t with
      | c :: _ => c == '•' || c == '·' || c == '-' || c == '*'
      | _ => false)

/-- `OrdinanceChunker.has_lists`. -/
def chunkHasLists (lines : List String) : Bool := lines.any (fun l => listLineHit l.toList)

/-- A chunk record.  `text` is the chunk's line list (the source stores
`'\n'.join` of it); `section_label`/`article_label` are the dict keys
`section`/`article` (renamed because `section` is a Lean keyword). -/
structure Chunk where
  text : List String
  section_label : Option String
  article_label : Option String
  category : String
  tokens : Nat
  section_number : Option String
  chunk_has_tables : Bool
  chunk_has_lists : Bool
deriving Repr, DecidableEq

/-- `OrdinanceChunker.extract_section_number`. -/
def extract_section_number : Option String → Option String
  | none => none
  | some s => secSearch s

/-- Build the flushed chunk dict of `chunk_by_sections`. -/
def mkChunk (sec art : Option String) (cur : List String) (tk : Nat) : Chunk :=
  let txt := joinLines cur
  { text := cur
    section_label := sec
    article_label := art
    category := detect_category txt
    tokens := tk
    section_number := extract_section_number sec
    chunk_has_tables := chunkHasTables cur
    chunk_has_lists := chunkHasLists cur }

/-- Loop state of `chunk_by_sections`.  `dropped` instruments the source's
section-boundary flush: it records that a nonempty buffer with at most 100
tokens was encountered at a section header and therefore discarded (the
`else` of `if current_chunk and current_tokens > 100`). -/
structure ChunkSt where
  cursec : Option String
  curart : Option String
  chunk : List String
  tokens : Nat
  chunks : List Chunk
  dropped : Bool
deriving Repr

/-- The article update performed on every line (`current_article`). -/
def stepArt (st : ChunkSt) (line : String) : Option String :=
  match artSearch line with
  | some g => some ("Article " ++ g)
  | none => st.curart

/-- One iteration of the line loop of `chunk_by_sections`. -/
def chunkStep (tok : String → Nat) (maxTokens : Nat) (st : ChunkSt) (line : String) : ChunkSt :=
  let art := stepArt st line
  if (secSearch line).isSome then
    let flushNow := !st.chunk.isEmpty && decide (100 < st.tokens)
    let chunks' := if flushNow then st.chunks ++ [mkChunk st.cursec art st.chunk st.tokens]
                   else st.chunks
    let dropped' := st.dropped || (!st.chunk.isEmpty && !decide (100 < st.tokens))
    { cursec := some (pyStrip line), curart := art, chunk := [line], tokens := tok line,
      chunks := chunks', dropped := dropped' }
  else
    let lt := tok line
    if decide (maxTokens < st.tokens + lt) && !st.chunk.isEmpty then
      let chunks' := st.chunks ++ [mkChunk st.cursec art st.chunk st.tokens]
      match st.cursec with
      | some s =>
        if s.isEmpty then
          { st with curart := art, chunk := [line], tokens := lt, chunks := chunks' }
        else
          { st with curart := art, chunk := [s, line], tokens := tok s + lt, chunks := chunks' }
      | none => { st with curart := art, chunk := [line], tokens := lt, chunks := chunks' }
    else
      { st with curart := art, chunk := st.chunk ++ [line], tokens := st.tokens + lt }

/-- The state after the line loop of `chunk_by_sections`. -/
def chunkRun (tok : String → Nat) (maxTokens : Nat) (text : String) : ChunkSt :=
  (pySplitLines text).foldl (chunkStep tok maxTokens)
    { cursec := none, curart := none, chunk := [], tokens := 0, chunks := [], dropped := false }

/-- `OrdinanceChunker.chunk_by_sections` (the source's default `max_tokens`
is 800).  The final buffer is flushed unconditionally. -/
def chunk_by_sections (tok : String → Nat) (maxTokens : Nat) (text : String) : List Chunk :=
  let st := chunkRun tok maxTokens text
  if st.chunk.isEmpty then st.chunks
  else st.chunks ++ [mkChunk st.cursec st.curart st.chunk st.tokens]

/-- The merged chunk of `merge_related_chunks`: text
`current['text'] + '\n\n' + next['text']`, category recomputed on the merged
text, token counts added, metadata taken from the first chunk. -/
def mergeChunk (a b : Chunk) : Chunk :=
  let mtext := joinLines a.text ++ "\n\n" ++ joinLines b.text
  { text := a.text ++ "" :: b.text
    section_label := a.section_label
    article_label := a.article_label
    category := detect_category mtext
    tokens := a.tokens + b.tokens
    section_number := a.section_number
    chunk_has_tables := a.chunk_has_tables
    chunk_has_lists := a.chunk_has_lists }

/-- `OrdinanceChunker.merge_related_chunks`: single left-to-right pass; two
adjacent chunks merge when they carry the same section label and their
combined token count is under 1200; a merged pair is never reconsidered. -/
def merge_related_chunks : List Chunk → List Chunk
  | [] => []
  | [c] => [c]
  | a :: b :: rest =>
    if a.section_label = b.section_label ∧ a.tokens + b.tokens < 1200 then
      mergeChunk a b :: merge_related_chunks rest
    else
      a :: merge_related_chunks (b :: rest)

/-- Sum of per-line token counts, the running count the chunker maintains. -/
def sumTok (tok : String → Nat) (ls : List String) : Nat :=
  ls.foldr (fun l acc => tok l + acc) 0

/-! ### CacheLayer (src/rag/cache.py) -/

/-- The five punctuation removals of `normalize_query`
(`replace('?','')`, `'.'`, `'!'`, `','`, `';'`). -/
def punctFilter (l : List Char) : List Char :=
  ((((l.filter (· != '?')).filter (· != '.')).filter (· != '!')).filter
    (· != ',')).filter (· != ';')

/-- The fixed stop-word list of `normalize_query`. -/
def filler_words : List String :=
  ["the", "a", "an", "is", "are", "in", "on", "at", "to", "for"]

/-- Words of `query.lower().strip()` after punctuation removal. -/
def normWordsChars (l : List Char) : List (List Char) :=
  splitWSChars (punctFilter (trimChars (pyLowerChars l)))

/-- The per-word filter `w not in filler_words or len(words) <= 3`, where
`len(words)` is the pre-filter count. -/
def keepWordsChars (ws : List (List Char)) : List (List Char) :=
  ws.filter (fun w => !(filler_words.map String.toList).contains w || decide (ws.length ≤ 3))

/-- `QueryCache.normalize_query` on a character list. -/
def normalizeChars (l : List Char) : List Char :=
  joinSpChars (keepWordsChars (normWordsChars l))

/-- `QueryCache.normalize_query`: lowercase, strip, drop the fixed
punctuation, drop stop words unless at most 3 words, rejoin with spaces. -/
def normalize_query (q : String) : String := String.mk (normalizeChars q.toList)

/-- `QueryCache.get_cache_key`: the source hashes the normalized query with
md5; the digest is modelled by the normalized string itself (md5 is treated
as injective, collisions are disregarded). -/
def get_cache_key (q : String) : String := normalize_query q

/-- The fixed domain-term vocabulary of `is_similar_query` (`key_terms`).
The entry `"property line"` contains a space and can never equal a single
word produced by `split()`, exactly as in the source. -/
def key_terms : List String :=
  ["shed", "barn", "setback", "permit", "chicken", "horse",
   "fence", "pool", "ar-1", "acre", "property line", "garage"]

/-- Keep-first deduplication (Python `set` built from a word list; only the
cardinalities of these sets are ever used). -/
def dedupAux : List String → List String → List String
  | [], _ => []
  | x :: xs, seen => if seen.contains x then dedupAux xs seen else x :: dedupAux xs (x :: seen)

/-- Deduplicated list, first occurrences kept. -/
def dedupStr (l : List String) : List String := dedupAux l []

/-- `set(word for word in q.split() if word in key_terms)`. -/
def restrictedTerms (q : String) : List String :=
  dedupStr ((pySplit q).filter (fun w => key_terms.contains w))

/-- `QueryCache.is_similar_query`.  The source compares the float
`overlap/total` against the literal `0.7`; for the reachable set sizes
(at most 12 vocabulary terms) the IEEE-double comparison coincides with the
exact rational test `overlap/total ≥ 7/10` (the closest achievable ratios
to the threshold are 2/3 below it and 7/10 itself), which is how the
comparison is modelled: `7 * total ≤ 10 * overlap`. -/
def is_similar_query (q1 q2 : String) : Bool :=
  let t1 := restrictedTerms q1
  let t2 := restrictedTerms q2
  if !t1.isEmpty && !t2.isEmpty then
    let overlap := (t1.filter (fun w => t2.contains w)).length
    let total := (t1 ++ t2.filter (fun w => !t1.contains w)).length
    decide (0 < total) && decide (7 * total ≤ 10 * overlap)
  else false

/-- The `details` dict of a curated cache entry; every key that occurs in
`common_qa` or is read by `_format_cached_answer` is a field, absent keys
are `none`. -/
structure CacheDetails where
  distance : Option String := none
  from_point : Option String := none
  zone : Option String := none
  structure_type : Option String := none
  reference : Option String := none
  required : Option String := none
  permit_type : Option String := none
  additional_requirements : Option String := none
  process : Option String := none
  animal_type : Option String := none
  allowed : Option String := none
  min_lot_size : Option String := none
  max_number : Option String := none
  requirements : Option String := none
  answer : Option String := none
  explanation : Option String := none
  permitted : Option String := none
  use_type : Option String := none
  conditions : Option String := none
deriving Repr, DecidableEq

/-- A cache entry: curated entries carry `details`; dynamic entries (added
by `add_to_cache`) carry only `answer` and `template_type`. -/
structure CacheEntry where
  answer : String
  details : Option CacheDetails := none
  template_type : Option String := none
deriving Repr, DecidableEq

/-- The predefined curated Q&A table `QueryCache.common_qa`, in dict
insertion order (the fuzzy-match loop iterates it in this order). -/
def common_qa : List (String × CacheEntry) :=
  [("can i build a shed in ar-1",
    { answer := "Yes, you can build a shed in AR-1 zones. Sheds are considered accessory structures and are permitted."
      details := some { distance := some "25 feet", from_point := some "side and rear property lines",
                        zone := some "AR-1", structure_type := some "shed/accessory structure",
                        reference := some "Section 5-603" }
      template_type := some "setback" }),
   ("what\x27s the setback for a barn",
    { answer := "In AR-1 zones, barns (agricultural structures) must be set back at least 50 feet from all property lines."
      details := some { distance := some "50 feet", from_point := some "all property lines",
                        zone := some "AR-1", structure_type := some "barn/agricultural structure",
                        reference := some "Section 5-603" }
      template_type := some "setback" }),
   ("how far from property line for accessory structure",
    { answer := "Accessory structures in AR-1 must be at least 25 feet from side and rear property lines."
      details := some { distance := some "25 feet", from_point := some "side and rear property lines",
                        zone := some "AR-1", structure_type := some "accessory structure",
                        reference := some "Section 5-603" }
      template_type := some "setback" }),
   ("do i need a permit for chickens",
    { answer := "No permit is required for chickens in AR-1 zones on lots of 2 acres or more. Chickens are considered agricultural use."
      details := some { required := some "No", permit_type := some "Not required",
                        additional_requirements := some "Minimum 2 acre lot required in AR-1",
                        reference := some "Section 5-102" }
      template_type := some "permit" }),
   ("do i need a permit for a shed",
    { answer := "Yes, a zoning permit is required for sheds over 200 square feet. Sheds 200 sq ft or smaller are exempt."
      details := some { required := some "Yes (if over 200 sq ft)", permit_type := some "Zoning Permit",
                        process := some "Submit application with site plan to Planning Department",
                        reference := some "Section 6-101" }
      template_type := some "permit" }),
   ("permit for fence",
    { answer := "No permit is required for fences up to 6 feet in height in rear and side yards. Front yard fences over 4 feet need a permit."
      details := some { required := some "Depends on location and height",
                        permit_type := some "Zoning Permit (if required)",
                        additional_requirements := some "Max 6 ft in rear/side, max 4 ft in front without permit",
                        reference := some "Section 5-900" }
      template_type := some "permit" }),
   ("are horses allowed on 2 acres",
    { answer := "Yes, horses are allowed on 2 acres in AR-1. The requirement is 1 horse per acre with a minimum of 2 acres."
      details := some { animal_type := some "Horses", allowed := some "Yes", zone := some "AR-1",
                        min_lot_size := some "2 acres", max_number := some "2 horses on 2 acres (1 per acre)",
                        reference := some "Section 5-102" }
      template_type := some "livestock" }),
   ("can i have chickens on 1 acre",
    { answer := "No, chickens require a minimum of 2 acres in AR-1 zones as they are considered agricultural use."
      details := some { animal_type := some "Chickens/Poultry", allowed := some "No (lot too small)",
                        zone := some "AR-1", min_lot_size := some "2 acres",
                        reference := some "Section 5-102" }
      template_type := some "livestock" }),
   ("how many chickens can i have",
    { answer := "In AR-1 zones with 2+ acres, there is no specific limit on chickens for personal/agricultural use. Commercial operations have different requirements."
      details := some { animal_type := some "Chickens/Poultry", allowed := some "Yes (with 2+ acres)",
                        zone := some "AR-1", min_lot_size := some "2 acres",
                        max_number := some "No limit for personal use",
                        requirements := some "Must be for personal/agricultural use, not commercial",
                        reference := some "Section 5-102" }
      template_type := some "livestock" }),
   ("maximum shed size without permit",
    { answer := "Sheds 200 square feet or smaller do not require a permit in AR-1 zones."
      details := some { answer := some "200 square feet",
                        explanation := some "Accessory structures 200 sq ft or less are exempt from permit requirements",
                        reference := some "Section 6-101" }
      template_type := some "simple" }),
   ("can i build a pool",
    { answer := "Yes, pools are permitted in AR-1 zones with proper permits and setbacks. Pools must be at least 10 feet from property lines."
      details := some { permitted := some "Yes", required := some "Yes",
                        permit_type := some "Building Permit and Zoning Permit",
                        additional_requirements := some "10 ft setback, fencing required",
                        reference := some "Section 5-1000" }
      template_type := some "permit" }),
   ("what can i build in ar-1",
    { answer := "AR-1 permits single-family dwellings, agricultural uses, and accessory structures like sheds, barns, and garages."
      details := some { answer := some "Single-family homes, agricultural structures, accessory buildings",
                        explanation := some "AR-1 is Agricultural Rural district allowing residential and agricultural uses",
                        reference := some "Section 3-102" }
      template_type := some "simple" }),
   ("minimum lot size ar-1",
    { answer := "The minimum lot size in AR-1 is 3 acres for new subdivisions."
      details := some { answer := some "3 acres",
                        explanation := some "AR-1 requires minimum 3 acre lots for new subdivisions",
                        reference := some "Section 4-100" }
      template_type := some "simple" }),
   ("can i run a business from home",
    { answer := "Yes, home businesses are allowed in AR-1 with a Special Exception permit. Restrictions apply on employees, parking, and signage."
      details := some { use_type := some "Home Business", permitted := some "Yes (With Special Exception)",
                        zone := some "AR-1",
                        conditions := some "Limited employees, no retail sales, restricted signage",
                        process := some "Apply for Special Exception through Board of Supervisors",
                        reference := some "Section 5-500" }
      template_type := some "use" }),
   ("shed setback requirements",
    { answer := "Sheds in AR-1 must be at least 25 feet from side and rear property lines."
      details := some { distance := some "25 feet", from_point := some "side and rear property lines",
                        zone := some "AR-1", structure_type := some "shed",
                        reference := some "Section 5-603" }
      template_type := some "setback" }),
   ("garage setback",
    { answer := "Detached garages in AR-1 must be at least 25 feet from side and rear property lines."
      details := some { distance := some "25 feet", from_point := some "side and rear property lines",
                        zone := some "AR-1", structure_type := some "detached garage",
                        reference := some "Section 5-603" }
      template_type := some "setback" }),
   ("fence height limit",
    { answer := "Fences can be up to 6 feet in rear and side yards, 4 feet in front yards without a permit."
      details := some { answer := some "6 ft (rear/side), 4 ft (front)",
                        explanation := some "Height limits vary by yard location. Higher fences require permits.",
                        reference := some "Section 5-900" }
      template_type := some "simple" }),
   ("accessory structure height",
    { answer := "Accessory structures in AR-1 can be up to 25 feet in height."
      details := some { answer := some "25 feet maximum",
                        explanation := some "Height limit for accessory structures in agricultural zones",
                        reference := some "Section 5-604" }
      template_type := some "simple" }),
   ("driveway permit",
    { answer := "A permit is required for new driveways or driveway modifications that connect to public roads."
      details := some { required := some "Yes", permit_type := some "VDOT Land Use Permit",
                        process := some "Apply through VDOT for connections to state roads",
                        reference := some "Section 7-400" }
      template_type := some "permit" }),
   ("beekeeping allowed",
    { answer := "Yes, beekeeping is allowed in AR-1 zones as an agricultural use on lots of 2 acres or more."
      details := some { animal_type := some "Bees/Beekeeping", allowed := some "Yes",
                        zone := some "AR-1", min_lot_size := some "2 acres",
                        requirements := some "Hives must be 50 ft from property lines",
                        reference := some "Section 5-102" }
      template_type := some "livestock" })]

/-- Dict lookup in an association list (first binding wins). -/
def lookupQA (l : List (String × CacheEntry)) (k : String) : Option CacheEntry :=
  (l.find? (fun p => p.1 == k)).map Prod.snd

/-- `QueryCache.check_cache`: exact curated lookup on the normalized query,
then the fuzzy scan over every curated key in table order, then the dynamic
table keyed by `get_cache_key`. -/
def check_cache (dyn : List (String × CacheEntry)) (query : String) : Option CacheEntry :=
  let normalized := normalize_query query
  match lookupQA common_qa normalized with
  | some e => some e
  | none =>
    match common_qa.find? (fun p => is_similar_query normalized p.1) with
    | some p => some p.2
    | none => lookupQA dyn (get_cache_key query)

/-- Python dict assignment `d[k] = v` on the association-list model. -/
def dictInsert (k : String) (v : CacheEntry) (d : List (String × CacheEntry)) :
    List (String × CacheEntry) :=
  (k, v) :: d.filter (fun p => p.1 != k)

/-- `QueryCache.add_to_cache` (the synchronous `save_cache` persistence is
outside the model). -/
def add_to_cache (dyn : List (String × CacheEntry)) (query : String) (entry : CacheEntry) :
    List (String × CacheEntry) :=
  dictInsert (get_cache_key query) entry dyn

/-! ### AnswerFormatter (src/rag/templates.py) -/

/-- A citation dict `{'section': ..., 'relevance': ...}`; the cache-hit path
builds citations without a `relevance` key, modelled by `none`. -/
structure Citation where
  section_label : String
  relevance : Option ℚ := none
deriving Repr, DecidableEq

/-- Generic joining with a separator (`sep.join(...)`). -/
def joinSepChars (sep : List Char) : List (List Char) → List Char
  | [] => []
  | [w] => w
  | w :: ws => w ++ sep ++ joinSepChars sep ws

/-- Scan the input left to right and return the first successful attempt,
the generic shape of `re.search` for the hand-compiled patterns below. -/
def scanFirst {α : Type} (att : List Char → Option α) : List Char → Option α
  | [] => none
  | c :: cs =>
    match att (c :: cs) with
    | some g => some g
    | none => scanFirst att cs

/-- Attempt of `(\d+)\s*(?:feet|ft|foot)` (IGNORECASE) anchored here;
returns the digit group. -/
def distAt (l : List Char) : Option (List Char) :=
  let d := l.takeWhile Char.isDigit
  if d.isEmpty then none else
  let r := (l.dropWhile Char.isDigit).dropWhile wsChar
  if (matchCIRest "feet".toList r).isSome || (matchCIRest "ft".toList r).isSome
     || (matchCIRest "foot".toList r).isSome
  then some d else none

/-- Shared shape of the zone alternatives `XX-\d+`: case-insensitive literal
then at least one digit; returns the matched slice of the original input
(the group keeps the original casing, as `re` does). -/
def zoneAlt (pat : String) (l : List Char) : Option (List Char) :=
  match matchCIRest pat.toList l with
  | none => none
  | some r =>
    let d := r.takeWhile Char.isDigit
    if d.isEmpty then none else some (l.take (pat.length + d.length))

/-- Attempt of `(AR-\d+|R-\d+|TR-\d+)` (IGNORECASE), alternatives tried in
order. -/
def zoneSetbackAt (l : List Char) : Option (List Char) :=
  match zoneAlt "ar-" l with
  | some z => some z
  | none =>
    match zoneAlt "r-" l with
    | some z => some z
    | none => zoneAlt "tr-" l

/-- Attempt of `(AR-\d+|R-\d+|A-\d+)` (IGNORECASE). -/
def zoneLiveAt (l : List Char) : Option (List Char) :=
  match zoneAlt "ar-" l with
  | some z => some z
  | none =>
    match zoneAlt "r-" l with
    | some z => some z
    | none => zoneAlt "a-" l

/-- Attempt of `\$(\d+)` anchored here; returns the digit group. -/
def feeAt (l : List Char) : Option (List Char) :=
  match l with
  | '$' :: r =>
    let d := r.takeWhile Char.isDigit
    if d.isEmpty then none else some d
  | _ => none

/-- Attempt of `(\d+(?:\.\d+)?)\s*acre` (IGNORECASE); the greedy optional
fraction is tried first, as the regex engine does. -/
def acreAt (l : List Char) : Option (List Char) :=
  let d1 := l.takeWhile Char.isDigit
  if d1.isEmpty then none else
  let r1 := l.dropWhile Char.isDigit
  let withFrac : Option (List Char) :=
    match r1 with
    | '.' :: r2 =>
      let d2 := r2.takeWhile Char.isDigit
      if d2.isEmpty then none
      else if (matchCIRest "acre".toList ((r2.dropWhile Char.isDigit).dropWhile wsChar)).isSome
      then some (d1 ++ '.' :: d2) else none
    | _ => none
  match withFrac with
  | some n => some n
  | none =>
    if (matchCIRest "acre".toList (r1.dropWhile wsChar)).isSome then some d1 else none

/-- Attempt of `Section\s+(\d+-\d+)` returning the group together with the
rest of the input after the match (needed for `re.findall`'s
non-overlapping scan). -/
def secAtFull (l : List Char) : Option (List Char × List Char) :=
  match matchCIRest "section".toList l with
  | none => none
  | some r0 =>
    if (r0.takeWhile wsChar).isEmpty then none else
    let r1 := r0.dropWhile wsChar
    let d1 := r1.takeWhile Char.isDigit
    if d1.isEmpty then none else
    match r1.dropWhile Char.isDigit with
    | '-' :: r2 =>
      let d2 := r2.takeWhile Char.isDigit
      if d2.isEmpty then none else some (d1 ++ '-' :: d2, r2.dropWhile Char.isDigit)
    | _ => none

/-- `re.findall(r'Section\s+(\d+-\d+)', ..., IGNORECASE)`: leftmost
non-overlapping matches, scanning resumes after each match.  The fuel is
the input length; every recursive call strictly shrinks the input, so the
fuel is never exhausted. -/
def findAllSecAux : Nat → List Char → List (List Char)
  | 0, _ => []
  | _ + 1, [] => []
  | fuel + 1, c :: cs =>
    match secAtFull (c :: cs) with
    | some (g, r) => g :: findAllSecAux fuel r
    | none => findAllSecAux fuel cs

/-- All captured section numbers of the reference pattern. -/
def findAllSec (l : List Char) : List (List Char) := findAllSecAux l.length l

/-- `AnswerFormatter.extract_reference`. -/
def extract_reference (answer : String) : String :=
  let ms := findAllSec answer.toList
  if ms.isEmpty then "See Loudoun County Zoning Ordinance"
  else "Section " ++ String.mk (joinSepChars ", ".toList ms)

/-- Trigger keyword set for the `setback` template. -/
def setback_triggers : List String :=
  ["setback", "distance from", "how far", "yards", "feet from"]

/-- Trigger keyword set for the `permit` template. -/
def permit_triggers : List String :=
  ["permit", "approval", "application", "need permit", "authorization"]

/-- Trigger keyword set for the `livestock` template. -/
def livestock_triggers : List String :=
  ["chicken", "horse", "cow", "livestock", "animal", "poultry", "fowl"]

/-- Trigger keyword set for the `use` template. -/
def use_triggers : List String :=
  ["allowed use", "permitted use", "can i use", "conditional use", "special exception"]

/-- `AnswerFormatter.template_triggers`, in dict insertion order — the order
in which `detect_template_type` scans the sets. -/
def template_triggers : List (String × List String) :=
  [("setback", setback_triggers), ("permit", permit_triggers),
   ("livestock", livestock_triggers), ("use", use_triggers)]

/-- Does any trigger of the set occur in the (already lowered) text? -/
def trigHit (trs : List String) (t : String) : Bool := trs.any (fun tr => pyIn tr t)

/-- `AnswerFormatter.detect_template_type`: scan the concatenation
`question + ' ' + answer` (lowered) against the ordered trigger sets; the
first set with a hit wins; no hit gives `"simple"`. -/
def detect_template_type (question answer : String) : String :=
  let combined := pyLower (question ++ " " ++ answer)
  match template_triggers.find? (fun p => trigHit p.2 combined) with
  | some p => p.1
  | none => "simple"

/-- Field-dict read (`fields[key]`); every key read below is present in the
corresponding dict, so the `""` default is never exercised. -/
def fget (d : List (String × String)) (k : String) : String :=
  ((d.find? (fun p => p.1 == k)).map Prod.snd).getD ""

/-- Field-dict update `fields[key] = value` (the key already exists; Python
keeps its position). -/
def fset (k v : String) (d : List (String × String)) : List (String × String) :=
  d.map (fun p => if p.1 = k then (p.1, v) else p)

/-- `AnswerFormatter.extract_setback_fields`. -/
def extract_setback_fields (answer : String) : List (String × String) :=
  let base := [("distance", "Not specified"), ("from_point", "property line"),
               ("zone", "Not specified"), ("structure_type", "accessory structure"),
               ("additional_notes", ""), ("reference", extract_reference answer)]
  let al := pyLower answer
  let d1 := match scanFirst distAt answer.toList with
    | some d => fset "distance" (String.mk d ++ " feet") base
    | none => base
  let d2 := match scanFirst zoneSetbackAt answer.toList with
    | some z => fset "zone" (String.mk z) d1
    | none => d1
  let d3 :=
    if pyIn "side" al then fset "from_point" "side property line" d2
    else if pyIn "rear" al then fset "from_point" "rear property line" d2
    else if pyIn "front" al then fset "from_point" "front property line" d2
    else d2
  if pyIn "shed" al then fset "structure_type" "shed" d3
  else if pyIn "barn" al then fset "structure_type" "barn/agricultural structure" d3
  else if pyIn "garage" al then fset "structure_type" "garage" d3
  else d3

/-- `AnswerFormatter.extract_permit_fields`. -/
def extract_permit_fields (answer : String) : List (String × String) :=
  let base := [("required", "Yes"), ("permit_type", "Zoning Permit"), ("fee_info", ""),
               ("process", "Submit application to Planning Department"),
               ("timeline_info", ""), ("additional_requirements", ""),
               ("reference", extract_reference answer)]
  let al := pyLower answer
  let d1 :=
    if pyIn "not required" al || pyIn "no permit" al then fset "required" "No" base
    else if pyIn "exempt" al then fset "required" "No (Exempt)" base
    else base
  let d2 :=
    if pyIn "building permit" al then fset "permit_type" "Building Permit" d1
    else if pyIn "special" al && pyIn "permit" al then fset "permit_type" "Special Use Permit" d1
    else if pyIn "zoning permit" al then fset "permit_type" "Zoning Permit" d1
    else d1
  match scanFirst feeAt answer.toList with
  | some d => fset "fee_info" ("**Fee:** $" ++ String.mk d) d2
  | none => d2

/-- Python `str.capitalize()`. -/
def pyCapitalize (s : String) : String :=
  match s.toList with
  | [] => ""
  | c :: cs => String.mk (c.toUpper :: cs.map Char.toLower)

/-- `AnswerFormatter.extract_livestock_fields`. -/
def extract_livestock_fields (answer : String) : List (String × String) :=
  let base := [("animal_type", "Not specified"), ("allowed", "Check regulations"),
               ("zone", "Not specified"), ("min_lot_size", "Not specified"),
               ("max_number", "Not specified"), ("requirements", ""),
               ("reference", extract_reference answer)]
  let al := pyLower answer
  let animals := ["chickens", "horses", "cows", "goats", "sheep", "poultry", "livestock"]
  let d1 := match animals.find? (fun a => pyIn a al) with
    | some a => fset "animal_type" (pyCapitalize a) base
    | none => base
  let d2 :=
    if pyIn "permitted" al || pyIn "allowed" al then fset "allowed" "Yes" d1
    else if pyIn "not permitted" al || pyIn "prohibited" al then fset "allowed" "No" d1
    else d1
  let d3 := match scanFirst acreAt answer.toList with
    | some n => fset "min_lot_size" (String.mk n ++ " acres") d2
    | none => d2
  match scanFirst zoneLiveAt answer.toList with
  | some z => fset "zone" (String.mk z) d3
  | none => d3

/-- `AnswerFormatter.extract_use_fields`. -/
def extract_use_fields (answer : String) : List (String × String) :=
  let base := [("use_type", "Not specified"), ("permitted", "Check regulations"),
               ("zone", "Not specified"), ("conditions", ""),
               ("process", "Contact Planning Department"),
               ("reference", extract_reference answer)]
  let al := pyLower answer
  if pyIn "permitted by right" al then fset "permitted" "Yes (By Right)" base
  else if pyIn "special exception" al then fset "permitted" "Yes (With Special Exception)" base
  else if pyIn "conditional use" al then fset "permitted" "Yes (Conditional)" base
  else if pyIn "not permitted" al then fset "permitted" "No" base
  else base

/-- `AnswerFormatter.extract_fields`: dispatch on the template type; the
default branch builds the `simple` fields (`answer.split('\n')[0]` when the
answer is non-empty). -/
def extract_fields (answer : String) (template_type : String) : List (String × String) :=
  if template_type = "setback" then extract_setback_fields answer
  else if template_type = "permit" then extract_permit_fields answer
  else if template_type = "livestock" then extract_livestock_fields answer
  else if template_type = "use" then extract_use_fields answer
  else
    [("answer", if answer.isEmpty then "See explanation" else (pySplitLines answer).headD ""),
     ("explanation", answer),
     ("reference", extract_reference answer)]

/-- The `setback` template's format string rendered with the field dict
(the second template line is the source's 16-space indentation line, which
the blank-line cleanup later removes). -/
def renderSetback (d : List (String × String)) : String :=
  "**Setback Requirements:**\n                \n**Distance Required:** " ++ fget d "distance"
  ++ "\n**Measured From:** " ++ fget d "from_point"
  ++ "\n**Applicable Zone:** " ++ fget d "zone"
  ++ "\n**Structure Type:** " ++ fget d "structure_type"
  ++ "\n\n" ++ fget d "additional_notes"
  ++ "\n\n**Reference:** " ++ fget d "reference"

/-- The `permit` template's format string rendered with the field dict. -/
def renderPermit (d : List (String × String)) : String :=
  "**Permit Requirements:**\n\n**Permit Required:** " ++ fget d "required"
  ++ "\n**Permit Type:** " ++ fget d "permit_type"
  ++ "\n" ++ fget d "fee_info"
  ++ "\n**Application Process:** " ++ fget d "process"
  ++ "\n" ++ fget d "timeline_info"
  ++ "\n\n" ++ fget d "additional_requirements"
  ++ "\n\n**Reference:** " ++ fget d "reference"

/-- The `livestock` template's format string rendered with the field dict. -/
def renderLivestock (d : List (String × String)) : String :=
  "**Livestock/Animal Regulations:**\n\n**Animal Type:** " ++ fget d "animal_type"
  ++ "\n**Allowed:** " ++ fget d "allowed"
  ++ "\n**Zone:** " ++ fget d "zone"
  ++ "\n**Minimum Lot Size:** " ++ fget d "min_lot_size"
  ++ "\n**Maximum Number:** " ++ fget d "max_number"
  ++ "\n\n**Additional Requirements:**\n" ++ fget d "requirements"
  ++ "\n\n**Reference:** " ++ fget d "reference"

/-- The `use` template's format string rendered with the field dict. -/
def renderUse (d : List (String × String)) : String :=
  "**Use Regulations:**\n\n**Use Type:** " ++ fget d "use_type"
  ++ "\n**Permitted:** " ++ fget d "permitted"
  ++ "\n**Zone:** " ++ fget d "zone"
  ++ "\n" ++ fget d "conditions"
  ++ "\n\n**Process:**\n" ++ fget d "process"
  ++ "\n\n**Reference:** " ++ fget d "reference"

/-- The `simple` template's format string rendered with the field dict. -/
def renderSimple (d : List (String × String)) : String :=
  "**Answer:** " ++ fget d "answer"
  ++ "\n\n**Explanation:** " ++ fget d "explanation"
  ++ "\n\n**Reference:** " ++ fget d "reference"

/-- `template['format'].format(**format_dict)` for the selected template.
Every placeholder key is present in the corresponding field dict, so the
source's `except KeyError` fallback is unreachable. -/
def renderTemplate (template_type : String) (d : List (String × String)) : String :=
  if template_type = "setback" then renderSetback d
  else if template_type = "permit" then renderPermit d
  else if template_type = "livestock" then renderLivestock d
  else if template_type = "use" then renderUse d
  else renderSimple d

/-- The final cleanup of `format_answer`: keep lines that are non-blank
after stripping, or exactly empty (whitespace-only lines are removed). -/
def cleanupLines (s : String) : String :=
  joinLines ((pySplitLines s).filter (fun l => !(pyStrip l).isEmpty || l.isEmpty))

/-- `AnswerFormatter.format_answer`: detect the template, extract fields,
override `reference` with up to 3 citation labels when citations were
supplied, blank out whitespace-only field values, render, clean up. -/
def format_answer (question answer : String) (citations : List Citation) : String :=
  let ttype := detect_template_type question answer
  let fields := extract_fields answer ttype
  let fields' :=
    if citations.isEmpty then fields
    else fset "reference"
      (String.mk (joinSepChars ", ".toList
        ((citations.take 3).map (fun c => ("Section " ++ c.section_label).toList)))) fields
  let fdict := fields'.map (fun p => (p.1, if (pyStrip p.2).isEmpty then "" else p.2))
  cleanupLines (renderTemplate ttype fdict)

/-! ### QueryExpander (src/rag/query_expander.py) -/

/-- A regex word character `[a-zA-Z0-9_]` (for `\b` boundaries). -/
def wordChar (c : Char) : Bool := c.isAlphanum || c == '_'

/-- Boundary check after a match: end of input or a non-word character. -/
def boundaryOK : List Char → Bool
  | [] => true
  | c :: _ => !wordChar c

/-- One `XX-\d+` alternative with the trailing `\b`; returns the matched
original-case slice and the rest of the input. -/
def zoneAltB (pat : String) (l : List Char) : Option (List Char × List Char) :=
  match matchCIRest pat.toList l with
  | none => none
  | some r =>
    let d := r.takeWhile Char.isDigit
    if d.isEmpty then none else
    let rest := r.dropWhile Char.isDigit
    if boundaryOK rest then some (l.take (pat.length + d.length), rest) else none

/-- The `PD-[A-Z]+\b` alternative (IGNORECASE makes `[A-Z]` any letter). -/
def zonePDAt (l : List Char) : Option (List Char × List Char) :=
  match matchCIRest "pd-".toList l with
  | none => none
  | some r =>
    let d := r.takeWhile Char.isAlpha
    if d.isEmpty then none else
    let rest := r.dropWhile Char.isAlpha
    if boundaryOK rest then some (l.take (3 + d.length), rest) else none

/-- Attempt of `(AR-\d+|R-\d+|TR-\d+|PD-[A-Z]+)\b` (IGNORECASE), alternatives
in regex order. -/
def zoneEntityAt (l : List Char) : Option (List Char × List Char) :=
  match zoneAltB "ar-" l with
  | some m => some m
  | none =>
    match zoneAltB "r-" l with
    | some m => some m
    | none =>
      match zoneAltB "tr-" l with
      | some m => some m
      | none => zonePDAt l

/-- `re.findall` of the zone pattern: the Bool tracks whether the previous
character is a word character (the leading `\b`); scanning resumes after
each match (whose last character is always a word character).  The fuel is
the input length and every call strictly shrinks the input. -/
def findZonesAux : Nat → Bool → List Char → List (List Char)
  | 0, _, _ => []
  | _ + 1, _, [] => []
  | fuel + 1, prevW, c :: cs =>
    if !prevW then
      match zoneEntityAt (c :: cs) with
      | some (m, r) => m :: findZonesAux fuel true r
      | none => findZonesAux fuel (wordChar c) cs
    else findZonesAux fuel (wordChar c) cs

/-- All zone matches of `extract_key_entities`. -/
def findZones (l : List Char) : List (List Char) := findZonesAux l.length false l

/-- The unit alternatives of the measurement pattern, in regex order. -/
def unitAlts : List String := ["acre", "feet", "foot", "ft", "square feet", "sq ft"]

/-- Attempt of `\b(\d+)\s*(acre|feet|foot|ft|square feet|sq ft)` anchored
here (leading `\b` checked by the caller); returns digit group, unit group
and the rest. -/
def measAt (l : List Char) : Option ((List Char × String) × List Char) :=
  let d := l.takeWhile Char.isDigit
  if d.isEmpty then none else
  let r2 := (l.dropWhile Char.isDigit).dropWhile wsChar
  match unitAlts.findSome? (fun u => (matchCIRest u.toList r2).map (fun rest => (u, rest))) with
  | some (u, rest) => some ((d, u), rest)
  | none => none

/-- `re.findall` of the measurement pattern on the lowered query. -/
def findMeasAux : Nat → Bool → List Char → List (List Char × String)
  | 0, _, _ => []
  | _ + 1, _, [] => []
  | fuel + 1, prevW, c :: cs =>
    if !prevW then
      match measAt (c :: cs) with
      | some (m, r) => m :: findMeasAux fuel true r
      | none => findMeasAux fuel (wordChar c) cs
    else findMeasAux fuel (wordChar c) cs

/-- All measurement matches of `extract_key_entities`. -/
def findMeas (l : List Char) : List (List Char × String) := findMeasAux l.length false l

/-- The entity dict of `QueryExpander.extract_key_entities`. -/
structure Entities where
  structures : List String
  animals : List String
  zones : List String
  measurements : List String
deriving Repr, DecidableEq

/-- `QueryExpander.extract_key_entities`: keyword scans for structures and
animals (an animal also matches via its plural), the zone regex on the
original query, the measurement regex on the lowered query. -/
def extract_key_entities (query : String) : Entities :=
  let ql := pyLower query
  { structures := ["shed", "barn", "garage", "fence", "pool", "deck", "house",
                   "building"].filter (fun k => pyIn k ql)
    animals := ["chicken", "horse", "cow", "goat", "pig", "sheep", "bee", "poultry",
                "livestock"].filter (fun k => pyIn k ql || pyIn (k ++ "s") ql)
    zones := (findZones query.toList).map String.mk
    measurements := (findMeas ql.toList).map (fun p => String.mk p.1 ++ " " ++ p.2) }

/-- `QueryExpander.create_focused_query`: the original query first, then the
structure-, animal- and zone-specific combinations, in loop order. -/
def create_focused_query (query : String) : List String :=
  let e := extract_key_entities query
  let ql := pyLower query
  let sQ := e.structures.flatMap (fun s =>
    (if pyIn "setback" ql then [s ++ " setback requirements", "accessory structure setback " ++ s]
     else [])
    ++ (if pyIn "permit" ql then [s ++ " permit requirements"] else []))
  let aQ := e.animals.flatMap (fun a =>
    [a ++ " regulations", "livestock " ++ a ++ " requirements"]
    ++ (if pyIn "permit" ql then [a ++ " permit requirements"] else []))
  let zQ := e.zones.flatMap (fun z =>
    [z ++ " regulations", z ++ " permitted uses"]
    ++ (match e.structures with
        | s :: _ => [z ++ " " ++ s ++ " requirements"]
        | [] => []))
  query :: (sQ ++ aQ ++ zQ)

/-! ### Pipeline (src/query_engine.py) -/

/-- The metadata of a retrieved passage; only its `section` key is ever
read (`metadata.get('section', ...)`). -/
structure PassageMeta where
  section_label : Option String
deriving Repr, DecidableEq

/-- A retrieved passage `{'text': ..., 'metadata': ..., 'distance': ...}`. -/
structure Passage where
  text : String
  metadata : PassageMeta
  distance : Option ℚ
deriving Repr, DecidableEq

/-- The external collaborators of `ZoningQueryEngine`:
`search q` models `self.search(q, county, top_k=5)` — query expansion, the
embedding call and the vector-index query all sit behind this boundary,
with the county filter and `top_k = 5` fixed for the invocation under
study; `generate p` models the chat-completion call on the built prompt. -/
structure Env where
  search : String → List Passage
  generate : String → String

/-- The pool fingerprint `hash(chunk['text'][:100])`, modelled by the first
100 characters themselves (the hash is treated as injective). -/
def fp (p : Passage) : String := String.mk (p.text.toList.take 100)

/-- The pooling loop of `search_multiple_queries`: at most the first 3
variants are issued; per variant, unseen passages (by fingerprint) are
appended in encounter order. -/
def collectPassages (searchFn : String → List Passage) (queries : List String) : List Passage :=
  (queries.take 3).foldl (fun acc q =>
    (searchFn q).foldl
      (fun acc' p => if (acc'.map fp).contains (fp p) then acc' else acc' ++ [p]) acc) []

/-- The sort key `x.get('distance', 1.0)`. -/
def passKey (p : Passage) : ℚ := p.distance.getD 1

/-- Stable insertion (a new element goes after existing equal keys),
matching Python's stable `sorted`. -/
def insertPass (x : Passage) : List Passage → List Passage
  | [] => [x]
  | y :: ys => if passKey x < passKey y then x :: y :: ys else y :: insertPass x ys

/-- Stable sort by ascending distance. -/
def sortPass (l : List Passage) : List Passage := l.foldl (fun acc x => insertPass x acc) []

/-- `ZoningQueryEngine.search_multiple_queries`. -/
def search_multiple_queries (searchFn : String → List Passage) (queries : List String)
    (top_k : Nat) : List Passage :=
  (sortPass (collectPassages searchFn queries)).take top_k

/-- `relevance = 1 - distance`, where a falsy — missing or zero — distance
counts as 0 (`chunk.get('distance', 0) if chunk.get('distance') else 0`). -/
def citRelevance (c : Passage) : ℚ :=
  1 - (match c.distance with
    | some d => if d = 0 then 0 else d
    | none => 0)

/-- The citation loop of `_extract_citations`: first 3 passages, one
citation per unseen section label. -/
def extractCitAux : List Passage → List String → List Citation
  | [], _ => []
  | c :: cs, seen =>
    let sec := c.metadata.section_label.getD "Unknown"
    if seen.contains sec then extractCitAux cs seen
    else { section_label := sec, relevance := some (citRelevance c) } :: extractCitAux cs (sec :: seen)

/-- `ZoningQueryEngine._extract_citations`. -/
def extract_citations (chunks : List Passage) : List Citation :=
  extractCitAux (chunks.take 3) []

/-- First-occurrence list of section labels (`sections` dict key order). -/
def sectionKeys (chunks : List Passage) : List String :=
  dedupStr (chunks.map (fun c => c.metadata.section_label.getD "General"))

/-- `ZoningQueryEngine._build_enhanced_context`: group passage texts by
section label (first-occurrence order), emit a `=== section ===` header,
the texts and an empty part per group, join everything with `"\n\n"`. -/
def build_enhanced_context (chunks : List Passage) : String :=
  let parts := (sectionKeys chunks).flatMap (fun sec =>
    ("=== " ++ sec ++ " ===")
      :: ((chunks.filter (fun c => c.metadata.section_label.getD "General" = sec)).map
            (fun c => c.text) ++ [""]))
  String.mk (joinSepChars "\n\n".toList (parts.map String.toList))

/-- `ZoningQueryEngine._build_focused_prompt`. -/
def build_focused_prompt (question context : String) (entities : Entities) : String :=
  let b0 := "Question: " ++ question ++ "\n\nRelevant ordinance sections:\n" ++ context ++ "\n\n"
  let b1 := if !entities.structures.isEmpty then
      b0 ++ "\nFocus on regulations for: "
         ++ String.mk (joinSepChars ", ".toList (entities.structures.map String.toList))
    else b0
  let b2 := if !entities.animals.isEmpty then
      b1 ++ "\nFocus on regulations for: "
         ++ String.mk (joinSepChars ", ".toList (entities.animals.map String.toList))
    else b1
  let b3 := if !entities.zones.isEmpty then
      b2 ++ "\nSpecific to zone(s): "
         ++ String.mk (joinSepChars ", ".toList (entities.zones.map String.toList))
    else b2
  b3 ++ "\n\nInstructions:\n1. Answer based ONLY on the provided ordinance text\n2. If asking about distances/setbacks, provide specific measurements\n3. If asking about permits, clearly state if required or not\n4. If asking about animals/livestock, include lot size requirements\n5. Cite specific section numbers (e.g., Section 5-603)\n6. If the information is not in the provided text, say so\n\nAnswer:"

/-- `ZoningQueryEngine._format_cached_answer` (the f-string templates; the
`setback` one carries the source's 12-space indentation line). -/
def format_cached_answer (cached : CacheEntry) : String :=
  let ttype := cached.template_type.getD "simple"
  let d := cached.details.getD {}
  if ttype = "setback" then
    "**Setback Requirements:**\n            \n**Distance Required:** " ++ d.distance.getD "Not specified"
    ++ "\n**Measured From:** " ++ d.from_point.getD "property line"
    ++ "\n**Applicable Zone:** " ++ d.zone.getD "AR-1"
    ++ "\n**Structure Type:** " ++ d.structure_type.getD "accessory structure"
    ++ "\n\n**Reference:** " ++ d.reference.getD "Loudoun County Zoning Ordinance"
  else if ttype = "permit" then
    let a0 := "**Permit Requirements:**\n\n**Permit Required:** " ++ d.required.getD "Yes"
      ++ "\n**Permit Type:** " ++ d.permit_type.getD "Zoning Permit"
    let a1 := match d.additional_requirements with
      | some ar => if ar.isEmpty then a0 else a0 ++ "\n\n" ++ ar
      | none => a0
    a1 ++ "\n\n**Reference:** " ++ d.reference.getD "Loudoun County Zoning Ordinance"
  else if ttype = "livestock" then
    "**Livestock/Animal Regulations:**\n\n**Animal Type:** " ++ d.animal_type.getD "Not specified"
    ++ "\n**Allowed:** " ++ d.allowed.getD "Check regulations"
    ++ "\n**Zone:** " ++ d.zone.getD "AR-1"
    ++ "\n**Minimum Lot Size:** " ++ d.min_lot_size.getD "Not specified"
    ++ "\n**Maximum Number:** " ++ d.max_number.getD "Not specified"
    ++ "\n\n" ++ d.requirements.getD ""
    ++ "\n\n**Reference:** " ++ d.reference.getD "Loudoun County Zoning Ordinance"
  else cached.answer

/-- A value of the result dict of `answer_question`. -/
inductive RVal where
  | s : String → RVal
  | b : Bool → RVal
  | n : Nat → RVal
  | cits : List Citation → RVal
deriving Repr, DecidableEq

/-- The result dict of `answer_question`, with the keys it actually carries
on the taken path. -/
abbrev Result := List (String × RVal)

/-- The dynamic cache dict. -/
abbrev DynCache := List (String × CacheEntry)

/-- Steps 2 and 3 of `answer_question`: multi-variant retrieval with the
single-query fallback. -/
def retrieved (env : Env) (question : String) : List Passage :=
  let chunks := search_multiple_queries env.search (create_focused_query question) 5
  if chunks.isEmpty then env.search question else chunks

/-- `ZoningQueryEngine.answer_question`, returning the result dict and the
dynamic cache after the call. -/
def answer_question (env : Env) (dyn : DynCache) (question county : String) :
    Result × DynCache :=
  match check_cache dyn question with
  | some cached =>
    match cached.details with
    | some d =>
      ([("question", .s question),
        ("answer", .s (format_cached_answer cached)),
        ("citations", .cits [{ section_label := d.reference.getD "Cached" }]),
        ("county", .s county),
        ("cached", .b true)], dyn)
    | none =>
      ([("question", .s question),
        ("answer", .s cached.answer),
        ("citations", .cits []),
        ("county", .s county),
        ("cached", .b true)], dyn)
  | none =>
    let chunks := retrieved env question
    if chunks.isEmpty then
      ([("question", .s question),
        ("answer", .s ("I don\x27t have any zoning information for " ++ county
          ++ " county yet. Please run the ingest.py script first to load the zoning ordinance.")),
        ("citations", .cits []),
        ("county", .s county)], dyn)
    else
      let answer := env.generate
        (build_focused_prompt question (build_enhanced_context chunks)
          (extract_key_entities question))
      let formatted := format_answer question answer (extract_citations chunks)
      let dyn' :=
        if 50 < answer.length then
          add_to_cache dyn question
            { answer := formatted,
              template_type := some (detect_template_type question answer) }
        else dyn
      ([("question", .s question),
        ("answer", .s formatted),
        ("citations", .cits (extract_citations chunks)),
        ("county", .s county),
        ("chunks_searched", .n chunks.length)], dyn')

/-! ### Observers and concrete instances used by the theorems -/

/-- The citations list of a result dict (`result['citations']`). -/
def getCitations (r : Result) : List Citation :=
  match (r.find? (fun p => p.1 == "citations")).map Prod.snd with
  | some (RVal.cits l) => l
  | _ => []

/-- The raw generated answer of the non-cached path (step 5 of
`answer_question`), as a standalone observer. -/
def rawAnswer (env : Env) (question : String) : String :=
  env.generate
    (build_focused_prompt question (build_enhanced_context (retrieved env question))
      (extract_key_entities question))

/-- The formatted answer of the non-cached path (step 6), as a standalone
observer. -/
def formattedAnswer (env : Env) (question : String) : String :=
  format_answer question (rawAnswer env question) (extract_citations (retrieved env question))

/-- A concrete tokenizer instantiation (token count = character count) for
concrete runs of the chunker; the chunker treats the tokenizer as an
opaque collaborator. -/
def lenTok (s : String) : Nat := s.length

/-- A concrete retrieved passage for concrete pipeline runs. -/
def passC : Passage :=
  { text := "Section 5-603 rules", metadata := { section_label := some "Section 5-603" },
    distance := some (1 / 10) }

/-- A concrete environment whose generation step returns a short (2
character) raw answer. -/
def envShort : Env := { search := fun _ => [passC], generate := fun _ => "ok" }

/-- A concrete environment whose generation step returns a long
(more than 50 character) raw answer. -/
def envLong : Env :=
  { search := fun _ => [passC]
    generate := fun _ =>
      "Sheds must be set back 25 feet from side property lines per Section 5-603." }

/-- A concrete chunk for witness runs of the merge pass. -/
def chunkW1 : Chunk :=
  { text := ["Section 1-1"], section_label := some "Section 1-1", article_label := none,
    category := "general", tokens := 200, section_number := some "1-1",
    chunk_has_tables := false, chunk_has_lists := false }

/-- A second concrete chunk with the same section label. -/
def chunkW2 : Chunk :=
  { text := ["more"], section_label := some "Section 1-1", article_label := none,
    category := "general", tokens := 300, section_number := some "1-1",
    chunk_has_tables := false, chunk_has_lists := false }

/-- The single chunk produced by `chunk_by_sections` on the concrete
witness document `"hello\nworld"` with `lenTok`. -/
def chunkHW : Chunk :=
  { text := ["hello", "world"], section_label := none, article_label := none,
    category := "general", tokens := 10, section_number := none,
    chunk_has_tables := false, chunk_has_lists := false }

/-! ### Theorems -/

/-- C10: for every input query string, `create_focused_query` returns a
non-empty list whose first element is the original query string unchanged;
all synthesized entity-combination variants appear only after it. -/
theorem create_focused_query_head (q : String) :
    (create_focused_query q).head? = some q ∧ create_focused_query q ≠ [] := by
  constructor <;> simp [create_focused_query]

/-- C9: `detect_template_type` checks the four trigger sets in the fixed
order setback, permit, livestock, use on the lowered concatenation of
question and answer; the first set with a hit wins, and no hit yields
`"simple"`.  In particular any text with a setback trigger — even one that
also has a livestock trigger — resolves to `"setback"`. -/
theorem detect_template_type_priority (q a : String) :
    (trigHit setback_triggers (pyLower (q ++ " " ++ a)) = true →
       detect_template_type q a = "setback")
  ∧ (trigHit setback_triggers (pyLower (q ++ " " ++ a)) = false →
     trigHit permit_triggers (pyLower (q ++ " " ++ a)) = true →
       detect_template_type q a = "permit")
  ∧ (trigHit setback_triggers (pyLower (q ++ " " ++ a)) = false →
     trigHit permit_triggers (pyLower (q ++ " " ++ a)) = false →
     trigHit livestock_triggers (pyLower (q ++ " " ++ a)) = true →
       detect_template_type q a = "livestock")
  ∧ (trigHit setback_triggers (pyLower (q ++ " " ++ a)) = false →
     trigHit permit_triggers (pyLower (q ++ " " ++ a)) = false →
     trigHit livestock_triggers (pyLower (q ++ " " ++ a)) = false →
     trigHit use_triggers (pyLower (q ++ " " ++ a)) = true →
       detect_template_type q a = "use")
  ∧ (trigHit setback_triggers (pyLower (q ++ " " ++ a)) = false →
     trigHit permit_triggers (pyLower (q ++ " " ++ a)) = false →
     trigHit livestock_triggers (pyLower (q ++ " " ++ a)) = false →
     trigHit use_triggers (pyLower (q ++ " " ++ a)) = false →
       detect_template_type q a = "simple") := by
  refine ⟨?_, ?_, ?_, ?_, ?_⟩ <;>
    · intros
      simp only [detect_template_type, template_triggers, List.find?]
      simp [*]

/-- Witness for C9: a text containing both a setback trigger (`"how far"`)
and a livestock trigger (`"chicken"`) resolves to `"setback"`. -/
theorem detect_template_type_priority_witness :
    detect_template_type "how far" "chicken coop" = "setback" ∧
    trigHit livestock_triggers (pyLower ("how far" ++ " " ++ "chicken coop")) = true :=
  ⟨(detect_template_type_priority "how far" "chicken coop").1 (by decide), by decide⟩

/-- C5: every output chunk of `merge_related_chunks` is either an input
chunk unchanged, or the merge of two adjacent input chunks that share one
section label — so no output chunk mixes two distinct `section_label`
values — and every merged chunk's token count is at most 1200. -/
theorem merge_related_chunks_section_safe (chunks : List Chunk) (c : Chunk)
    (hc : c ∈ merge_related_chunks chunks) :
    c ∈ chunks ∨
      ∃ a b, (∃ l1 l2, chunks = l1 ++ a :: b :: l2) ∧
        a.section_label = b.section_label ∧ c = mergeChunk a b ∧
        c.section_label = a.section_label ∧ c.tokens ≤ 1200 := by
  induction chunks using merge_related_chunks.induct with
  | case1 => simp [merge_related_chunks] at hc
  | case2 d => simp [merge_related_chunks] at hc; simp [hc]
  | case3 a b rest h ih =>
    rw [merge_related_chunks, if_pos h] at hc
    rcases List.mem_cons.mp hc with hc | hc
    · right
      refine ⟨a, b, ⟨[], rest, rfl⟩, h.1, hc, ?_, ?_⟩ <;> subst hc
      · rfl
      · show a.tokens + b.tokens ≤ 1200
        omega
    · rcases ih hc with h' | ⟨a', b', ⟨l1, l2, hsplit⟩, hsec, hmerge, hlab, htok⟩
      · exact Or.inl (List.mem_cons_of_mem a (List.mem_cons_of_mem b h'))
      · exact Or.inr ⟨a', b', ⟨a :: b :: l1, l2, by rw [hsplit]; simp⟩, hsec, hmerge, hlab, htok⟩
  | case4 a b rest h ih =>
    rw [merge_related_chunks, if_neg h] at hc
    rcases List.mem_cons.mp hc with hc | hc
    · exact Or.inl (by simp [hc])
    · rcases ih hc with h' | ⟨a', b', ⟨l1, l2, hsplit⟩, hsec, hmerge, hlab, htok⟩
      · exact Or.inl (List.mem_cons_of_mem a h')
      · exact Or.inr ⟨a', b', ⟨a :: l1, l2, by rw [hsplit]; simp⟩, hsec, hmerge, hlab, htok⟩

/-- Witness for C5: the theorem applied to a concrete two-chunk list and
its merged output chunk. -/
theorem merge_related_chunks_section_safe_witness :
    mergeChunk chunkW1 chunkW2 ∈ [chunkW1, chunkW2] ∨
      ∃ a b, (∃ l1 l2, ([chunkW1, chunkW2] : List Chunk) = l1 ++ a :: b :: l2) ∧
        a.section_label = b.section_label ∧ mergeChunk chunkW1 chunkW2 = mergeChunk a b ∧
        (mergeChunk chunkW1 chunkW2).section_label = a.section_label ∧
        (mergeChunk chunkW1 chunkW2).tokens ≤ 1200 :=
  merge_related_chunks_section_safe [chunkW1, chunkW2] (mergeChunk chunkW1 chunkW2) (by decide)

/-- The citation accumulator of `_extract_citations` emits at most one
citation per passage. -/
theorem extractCitAux_length_le (l : List Passage) (seen : List String) :
    (extractCitAux l seen).length ≤ l.length := by
  induction l generalizing seen with
  | nil => simp [extractCitAux]
  | cons c cs ih =>
    have h1 := ih seen
    have h2 := ih (c.metadata.section_label.getD "Unknown" :: seen)
    by_cases hmem : c.metadata.section_label.getD "Unknown" ∈ seen <;>
      simp [extractCitAux, hmem] <;> omega

/-- Every citation the accumulator emits carries a section label outside
`seen`. -/
theorem extractCitAux_not_seen (l : List Passage) (seen : List String) :
    ∀ c ∈ extractCitAux l seen, c.section_label ∉ seen := by
  induction l generalizing seen with
  | nil => simp [extractCitAux]
  | cons c cs ih =>
    by_cases hmem : c.metadata.section_label.getD "Unknown" ∈ seen
    · simpa [extractCitAux, hmem] using ih seen
    · intro x hx
      rw [show extractCitAux (c :: cs) seen =
            { section_label := c.metadata.section_label.getD "Unknown",
              relevance := some (citRelevance c) }
            :: extractCitAux cs (c.metadata.section_label.getD "Unknown" :: seen) from by
          simp [extractCitAux, hmem]] at hx
      rcases List.mem_cons.mp hx with rfl | hx
      · exact hmem
      · have := ih (c.metadata.section_label.getD "Unknown" :: seen) x hx
        exact fun hmemx => this (List.mem_cons_of_mem _ hmemx)

/-- The citations the accumulator emits have pairwise distinct section
labels. -/
theorem extractCitAux_pairwise (l : List Passage) (seen : List String) :
    (extractCitAux l seen).Pairwise (fun a b => a.section_label ≠ b.section_label) := by
  induction l generalizing seen with
  | nil => simp [extractCitAux]
  | cons c cs ih =>
    by_cases hmem : c.metadata.section_label.getD "Unknown" ∈ seen
    · simpa [extractCitAux, hmem] using ih seen
    · rw [show extractCitAux (c :: cs) seen =
            { section_label := c.metadata.section_label.getD "Unknown",
              relevance := some (citRelevance c) }
            :: extractCitAux cs (c.metadata.section_label.getD "Unknown" :: seen) from by
          simp [extractCitAux, hmem]]
      refine List.Pairwise.cons ?_ (ih _)
      intro x hx
      have := extractCitAux_not_seen cs _ x hx
      simp only [ne_eq]
      intro heq
      exact this (heq ▸ List.mem_cons_self _ _)

/-- C8: on every path of `answer_question` (cache hit with or without
details, no-knowledge, retrieval) the citation list has at most 3 elements
and no two of them share a section label. -/
theorem answer_question_citations_cap (env : Env) (dyn : DynCache) (q county : String) :
    (getCitations (answer_question env dyn q county).1).length ≤ 3 ∧
    (getCitations (answer_question env dyn q county).1).Pairwise
      (fun a b => a.section_label ≠ b.section_label) := by
  have hcit : ∀ chunks : List Passage,
      (extract_citations chunks).length ≤ 3 ∧
      (extract_citations chunks).Pairwise (fun a b => a.section_label ≠ b.section_label) := by
    intro chunks
    refine ⟨le_trans (extractCitAux_length_le _ _) ?_, extractCitAux_pairwise _ _⟩
    simp
  rcases h : check_cache dyn q with _ | cached
  · by_cases he : (retrieved env q).isEmpty
    · simp [answer_question, h, he, getCitations]
    · simp [answer_question, h, he, getCitations]
      exact hcit _
  · rcases hd : cached.details with _ | d
    · simp [answer_question, h, hd, getCitations]
    · simp [answer_question, h, hd, getCitations]

/-- C3 (amended): on a cache miss with a non-empty retrieval, the result
dict carries exactly the keys `question`, `answer`, `citations`, `county`
(the spec's "jurisdiction") and `chunks_searched`, with `chunks_searched`
the number of passages used; no `cached` key is present on this path —
`cached = false` is expressed by the key's absence, not by a stored
`false`. -/
theorem answer_question_miss_shape (env : Env) (dyn : DynCache) (q county : String)
    (hmiss : check_cache dyn q = none) (hret : retrieved env q ≠ []) :
    (answer_question env dyn q county).1.map Prod.fst
      = ["question", "answer", "citations", "county", "chunks_searched"]
  ∧ ("chunks_searched", RVal.n (retrieved env q).length) ∈ (answer_question env dyn q county).1
  ∧ "cached" ∉ (answer_question env dyn q county).1.map Prod.fst := by
  have he : (retrieved env q).isEmpty = false := by
    simpa [List.isEmpty_iff] using hret
  refine ⟨?_, ?_, ?_⟩ <;> simp [answer_question, hmiss, he]

/-- Witness for C3's amended theorem at a concrete environment, empty
dynamic cache and the question `"hello world xyz"` (a cache miss whose
retrieval returns one passage). -/
theorem answer_question_miss_shape_witness :
    (answer_question envShort [] "hello world xyz" "loudoun").1.map Prod.fst
      = ["question", "answer", "citations", "county", "chunks_searched"]
  ∧ ("chunks_searched", RVal.n (retrieved envShort "hello world xyz").length)
      ∈ (answer_question envShort [] "hello world xyz" "loudoun").1
  ∧ "cached" ∉ (answer_question envShort [] "hello world xyz" "loudoun").1.map Prod.fst :=
  answer_question_miss_shape envShort [] "hello world xyz" "loudoun" (by decide) (by decide)

/-- Counterexample to C3 as stated: at this concrete input the cache lookup
misses and retrieval is non-empty, yet the returned record does not contain
a `cached` key at all (so in particular not `cached = false`). -/
theorem answer_question_cached_key_missing :
    check_cache [] "hello world xyz" = none
  ∧ retrieved envShort "hello world xyz" ≠ []
  ∧ ("cached", RVal.b false) ∉ (answer_question envShort [] "hello world xyz" "loudoun").1
  ∧ "cached" ∉ (answer_question envShort [] "hello world xyz" "loudoun").1.map Prod.fst := by
  refine ⟨by decide, by decide, by decide, by decide⟩

/-- C4 (amended): on the non-cached path with a non-empty retrieval, a
dynamic cache entry is created if and only if the RAW generated answer —
not the formatted text — is longer than 50 characters; the entry stores the
formatted answer under the inferred template type, and a short raw answer
never creates an entry. -/
theorem cache_insert_iff_raw_length (env : Env) (dyn : DynCache) (q county : String)
    (hmiss : check_cache dyn q = none) (hret : retrieved env q ≠ []) :
    ((answer_question env dyn q county).2 ≠ dyn → 50 < (rawAnswer env q).length)
  ∧ (50 < (rawAnswer env q).length →
      (answer_question env dyn q county).2
        = add_to_cache dyn q
            { answer := formattedAnswer env q,
              template_type := some (detect_template_type q (rawAnswer env q)) })
  ∧ ((rawAnswer env q).length ≤ 50 → (answer_question env dyn q county).2 = dyn) := by
  have he : (retrieved env q).isEmpty = false := by
    simpa [List.isEmpty_iff] using hret
  by_cases hlen : 50 < (rawAnswer env q).length
  · have hlen' : 50 < (env.generate (build_focused_prompt q
        (build_enhanced_context (retrieved env q)) (extract_key_entities q))).length := by
      simpa [rawAnswer] using hlen
    refine ⟨fun _ => hlen, fun _ => ?_, fun h => absurd hlen (by omega)⟩
    simp [answer_question, hmiss, he, rawAnswer, formattedAnswer, hlen']
  · have hle : (rawAnswer env q).length ≤ 50 := by omega
    have h2 : (answer_question env dyn q county).2 = dyn := by
      simp [answer_question, hmiss, he, rawAnswer] at hlen ⊢
      simp [hlen]
    exact ⟨fun h => absurd h2 h, fun h => absurd h hlen, fun _ => h2⟩

/-- Witness for C4's amended theorem: with a long raw answer the entry is
created and stores the formatted answer. -/
theorem cache_insert_iff_raw_length_witness :
    (((answer_question envLong [] "hello world xyz" "loudoun").2 ≠ [] →
        50 < (rawAnswer envLong "hello world xyz").length)
  ∧ (50 < (rawAnswer envLong "hello world xyz").length →
      (answer_question envLong [] "hello world xyz" "loudoun").2
        = add_to_cache [] "hello world xyz"
            { answer := formattedAnswer envLong "hello world xyz",
              template_type := some (detect_template_type "hello world xyz"
                (rawAnswer envLong "hello world xyz")) })
  ∧ ((rawAnswer envLong "hello world xyz").length ≤ 50 →
      (answer_question envLong [] "hello world xyz" "loudoun").2 = [])) :=
  cache_insert_iff_raw_length envLong [] "hello world xyz" "loudoun" (by decide) (by decide)

/-- Counterexample to C4 as stated: at this concrete input the formatted
answer exceeds the 50-character threshold, yet no dynamic cache entry is
created, because the source gates the insert on the raw generated answer
(2 characters here). -/
theorem cache_insert_not_on_formatted :
    check_cache [] "hello world xyz" = none
  ∧ retrieved envShort "hello world xyz" ≠ []
  ∧ 50 < (formattedAnswer envShort "hello world xyz").length
  ∧ (rawAnswer envShort "hello world xyz").length ≤ 50
  ∧ (answer_question envShort [] "hello world xyz" "loudoun").2 = [] := by
  refine ⟨by decide, by decide, by decide, by decide, by decide⟩

/-- Membership in the keep-first deduplication accumulator. -/
theorem mem_dedupAux (x : String) : ∀ (l seen : List String),
    x ∈ dedupAux l seen ↔ x ∈ l ∧ x ∉ seen := by
  intro l
  induction l with
  | nil => intro seen; simp [dedupAux]
  | cons y ys ih =>
    intro seen
    by_cases hy : y ∈ seen
    · rw [show dedupAux (y :: ys) seen = dedupAux ys seen from by simp [dedupAux, hy]]
      rw [ih]
      constructor
      · exact fun h => ⟨List.mem_cons_of_mem _ h.1, h.2⟩
      · rintro ⟨ha, hb⟩
        rcases List.mem_cons.mp ha with rfl | ha
        · exact absurd hy hb
        · exact ⟨ha, hb⟩
    · rw [show dedupAux (y :: ys) seen = y :: dedupAux ys (y :: seen) from by
        simp [dedupAux, hy]]
      constructor
      · intro hx
        rcases List.mem_cons.mp hx with rfl | hx
        · exact ⟨List.mem_cons_self _ _, hy⟩
        · have h := (ih (y :: seen)).mp hx
          exact ⟨List.mem_cons_of_mem _ h.1, fun hs => h.2 (List.mem_cons_of_mem _ hs)⟩
      · rintro ⟨ha, hb⟩
        rcases List.mem_cons.mp ha with rfl | ha
        · exact List.mem_cons_self _ _
        · by_cases hxy : x = y
          · subst hxy; exact List.mem_cons_self _ _
          · exact List.mem_cons_of_mem _ ((ih (y :: seen)).mpr ⟨ha, by simp [hb, hxy]⟩)

/-- The deduplication accumulator yields duplicate-free lists. -/
theorem nodup_dedupAux : ∀ (l seen : List String), (dedupAux l seen).Nodup := by
  intro l
  induction l with
  | nil => intro seen; simp [dedupAux]
  | cons y ys ih =>
    intro seen
    by_cases hy : y ∈ seen
    · rw [show dedupAux (y :: ys) seen = dedupAux ys seen from by simp [dedupAux, hy]]
      exact ih _
    · rw [show dedupAux (y :: ys) seen = y :: dedupAux ys (y :: seen) from by
        simp [dedupAux, hy]]
      exact List.Nodup.cons
        (fun hx => ((mem_dedupAux y ys (y :: seen)).mp hx).2 (List.mem_cons_self _ _)) (ih _)

/-- Deduplication preserves the underlying set. -/
theorem toFinset_dedupStr (l : List String) : (dedupStr l).toFinset = l.toFinset := by
  ext a
  simp [dedupStr, mem_dedupAux]

/-- The restricted term list is duplicate-free and carries the set of
vocabulary words of the query. -/
theorem restrictedTerms_spec (q : String) :
    (restrictedTerms q).Nodup ∧
    (restrictedTerms q).toFinset
      = ((pySplit q).filter (fun w => key_terms.contains w)).toFinset :=
  ⟨nodup_dedupAux _ [], toFinset_dedupStr _⟩

/-- C7: for every pair of normalized query strings whose restricted
vocabulary sets are both non-empty, the fuzzy match accepts exactly when
the Jaccard ratio of the two sets is at least 0.7 (a ratio of exactly 7/10
is a match; anything below is a miss). -/
theorem is_similar_query_iff_jaccard (q1 q2 : String)
    (h1 : (((pySplit q1).filter (fun w => key_terms.contains w)).toFinset).Nonempty)
    (h2 : (((pySplit q2).filter (fun w => key_terms.contains w)).toFinset).Nonempty) :
    is_similar_query q1 q2 = true ↔
      7 * ((((pySplit q1).filter (fun w => key_terms.contains w)).toFinset
            ∪ ((pySplit q2).filter (fun w => key_terms.contains w)).toFinset).card)
        ≤ 10 * ((((pySplit q1).filter (fun w => key_terms.contains w)).toFinset
            ∩ ((pySplit q2).filter (fun w => key_terms.contains w)).toFinset).card) := by
  rw [← (restrictedTerms_spec q1).2, ← (restrictedTerms_spec q2).2]
  have nd1 := (restrictedTerms_spec q1).1
  have nd2 := (restrictedTerms_spec q2).1
  set t1 := restrictedTerms q1 with ht1
  set t2 := restrictedTerms q2 with ht2
  have hne1 : t1 ≠ [] := by
    intro h
    have hx := h1
    rw [← (restrictedTerms_spec q1).2, ← ht1, h] at hx
    simp at hx
  have hne2 : t2 ≠ [] := by
    intro h
    have hx := h2
    rw [← (restrictedTerms_spec q2).2, ← ht2, h] at hx
    simp at hx
  have hov : (t1.filter (fun w => t2.contains w)).toFinset = t1.toFinset ∩ t2.toFinset := by
    ext a
    simp [List.mem_filter]
  have hovlen : (t1.filter (fun w => t2.contains w)).length = (t1.toFinset ∩ t2.toFinset).card := by
    rw [← hov]
    exact (List.toFinset_card_of_nodup (nd1.filter _)).symm
  have hun : (t1 ++ t2.filter (fun w => !t1.contains w)).toFinset
      = t1.toFinset ∪ t2.toFinset := by
    ext a
    simp [List.mem_filter]
    tauto
  have hunnd : (t1 ++ t2.filter (fun w => !t1.contains w)).Nodup := by
    refine List.Nodup.append nd1 (nd2.filter _) ?_
    intro a ha hb
    have := List.of_mem_filter hb
    simp at this
    exact this ha
  have hunlen : (t1 ++ t2.filter (fun w => !t1.contains w)).length
      = (t1.toFinset ∪ t2.toFinset).card := by
    rw [← hun]
    exact (List.toFinset_card_of_nodup hunnd).symm
  have hpos : 0 < (t1 ++ t2.filter (fun w => !t1.contains w)).length := by
    rcases t1 with _ | ⟨w, ws⟩
    · exact absurd rfl hne1
    · simp
  rw [show is_similar_query q1 q2
      = (decide (0 < (t1 ++ t2.filter (fun w => !t1.contains w)).length)
         && decide (7 * (t1 ++ t2.filter (fun w => !t1.contains w)).length
              ≤ 10 * (t1.filter (fun w => t2.contains w)).length)) from by
    simp [is_similar_query, ← ht1, ← ht2, hne1, hne2]]
  simp only [Bool.and_eq_true, decide_eq_true_eq, hovlen, hunlen]
  constructor
  · exact fun h => h.2
  · intro h
    exact ⟨by rw [← hunlen] at *; exact hpos, h⟩

/-- Witness for C7: two concrete queries whose restricted sets have
intersection 7 and union 10 — a Jaccard ratio of exactly 0.7 — are accepted
by the fuzzy match. -/
theorem is_similar_query_iff_jaccard_witness :
    ((((pySplit "shed barn setback permit chicken horse fence pool").filter
        (fun w => key_terms.contains w)).toFinset).Nonempty)
  ∧ ((((pySplit "shed barn setback permit chicken horse fence ar-1 acre").filter
        (fun w => key_terms.contains w)).toFinset).Nonempty)
  ∧ is_similar_query "shed barn setback permit chicken horse fence pool"
      "shed barn setback permit chicken horse fence ar-1 acre" = true :=
  ⟨by decide, by decide,
    (is_similar_query_iff_jaccard
      "shed barn setback permit chicken horse fence pool"
      "shed barn setback permit chicken horse fence ar-1 acre"
      (by decide) (by decide)).mpr (by decide)⟩

/-- `sumTok` on an empty buffer. -/
theorem sumTok_nil (tok : String → Nat) : sumTok tok [] = 0 := rfl

/-- `sumTok` unfolding on a cons. -/
theorem sumTok_cons (tok : String → Nat) (x : String) (l : List String) :
    sumTok tok (x :: l) = tok x + sumTok tok l := rfl

/-- `sumTok` over an appended line. -/
theorem sumTok_append_single (tok : String → Nat) (l : List String) (x : String) :
    sumTok tok (l ++ [x]) = sumTok tok l + tok x := by
  induction l with
  | nil => simp [sumTok]
  | cons y ys ih => simp [sumTok_cons, ih]; omega

/-- The instrumentation flag is never cleared by a step. -/
theorem chunkStep_dropped_mono (tok : String → Nat) (maxT : Nat) (st : ChunkSt)
    (line : String) (h : st.dropped = true) :
    (chunkStep tok maxT st line).dropped = true := by
  unfold chunkStep
  repeat' split
  all_goals simp [h, apply_ite ChunkSt.dropped]

/-- The instrumentation flag is never cleared by the whole line loop. -/
theorem foldl_dropped_mono (tok : String → Nat) (maxT : Nat) :
    ∀ (lines : List String) (st : ChunkSt), st.dropped = true →
      (lines.foldl (chunkStep tok maxT) st).dropped = true := by
  intro lines
  induction lines with
  | nil => intro st h; simpa using h
  | cons x xs ih => intro st h; exact ih _ (chunkStep_dropped_mono tok maxT st x h)

/-- The line driving a step always enters the new buffer. -/
theorem chunkStep_line_mem (tok : String → Nat) (maxT : Nat) (st : ChunkSt) (line : String) :
    line ∈ (chunkStep tok maxT st line).chunk := by
  unfold chunkStep
  repeat' split
  all_goals (try simp [apply_ite ChunkSt.chunk])
  all_goals (split <;> simp)

/-- A non-dropping step carries every already-placed line along: a line in
an emitted chunk or in the buffer stays in an emitted chunk or the buffer. -/
theorem chunkStep_carry (tok : String → Nat) (maxT : Nat) (st : ChunkSt) (line l : String)
    (hd : (chunkStep tok maxT st line).dropped = false)
    (h : (∃ c ∈ st.chunks, l ∈ c.text) ∨ l ∈ st.chunk) :
    (∃ c ∈ (chunkStep tok maxT st line).chunks, l ∈ c.text)
      ∨ l ∈ (chunkStep tok maxT st line).chunk := by
  by_cases hsec : (secSearch line).isSome = true
  · by_cases hbig : ¬st.chunk = [] ∧ 100 < st.tokens
    · rcases h with ⟨c, hc, hl⟩ | hbuf
      · exact Or.inl ⟨c, by simp [chunkStep, hsec, hbig, hc], hl⟩
      · refine Or.inl ⟨mkChunk st.cursec (stepArt st line) st.chunk st.tokens, ?_, ?_⟩
        · simp [chunkStep, hsec, hbig]
        · simpa [mkChunk] using hbuf
    · rcases h with ⟨c, hc, hl⟩ | hbuf
      · exact Or.inl ⟨c, by simp [chunkStep, hsec, hbig, hc], hl⟩
      · exfalso
        rcases hne : st.chunk with _ | ⟨w, ws⟩
        · rw [hne] at hbuf; simp at hbuf
        · have h100 : ¬(100 < st.tokens) := fun hgt => hbig ⟨by simp [hne], hgt⟩
          rw [show (chunkStep tok maxT st line).dropped = true from by
            simp [chunkStep, hsec, hne, h100]] at hd
          cases hd
  · by_cases hover : maxT < st.tokens + tok line ∧ ¬st.chunk = []
    · have hmem : ∀ x : Chunk, x ∈ st.chunks →
          x ∈ (chunkStep tok maxT st line).chunks := by
        intro x hx
        rcases hcur : st.cursec with _ | sv
        · simp [chunkStep, hsec, hover, hcur, hx]
        · by_cases hs : sv.isEmpty = true <;>
            simp [chunkStep, hsec, hover, hcur, hs, hx]
      have hmemflushed : mkChunk st.cursec (stepArt st line) st.chunk st.tokens
          ∈ (chunkStep tok maxT st line).chunks := by
        rcases hcur : st.cursec with _ | sv
        · simp [chunkStep, hsec, hover, hcur]
        · by_cases hs : sv.isEmpty = true <;>
            simp [chunkStep, hsec, hover, hcur, hs]
      rcases h with ⟨c, hc, hl⟩ | hbuf
      · exact Or.inl ⟨c, hmem c hc, hl⟩
      · exact Or.inl ⟨mkChunk st.cursec (stepArt st line) st.chunk st.tokens, hmemflushed,
          by simpa [mkChunk] using hbuf⟩
    · rcases h with ⟨c, hc, hl⟩ | hbuf
      · exact Or.inl ⟨c, by simp [chunkStep, hsec, hover, hc], hl⟩
      · refine Or.inr ?_
        simp [chunkStep, hsec, hover, hbuf]

/-- Coverage invariant for the whole line loop, assuming no buffer was
dropped. -/
theorem chunk_cov_aux (tok : String → Nat) (maxT : Nat) :
    ∀ (lines : List String) (st : ChunkSt),
      (lines.foldl (chunkStep tok maxT) st).dropped = false →
      ∀ l, (l ∈ lines ∨ (∃ c ∈ st.chunks, l ∈ c.text) ∨ l ∈ st.chunk) →
        (∃ c ∈ (lines.foldl (chunkStep tok maxT) st).chunks, l ∈ c.text)
          ∨ l ∈ (lines.foldl (chunkStep tok maxT) st).chunk := by
  intro lines
  induction lines with
  | nil =>
    intro st _ l hl
    rcases hl with h | h
    · simp at h
    · simpa using h
  | cons x xs ih =>
    intro st hfin l hl
    have hstep : (chunkStep tok maxT st x).dropped = false := by
      rcases hsd : (chunkStep tok maxT st x).dropped with _ | _
      · rfl
      · rw [List.foldl_cons] at hfin
        rw [foldl_dropped_mono tok maxT xs _ hsd] at hfin
        cases hfin
    rw [List.foldl_cons] at hfin ⊢
    apply ih _ hfin
    rcases hl with hx | hcarry
    · rcases List.mem_cons.mp hx with rfl | hx
      · exact Or.inr (Or.inr (chunkStep_line_mem tok maxT st l))
      · exact Or.inl hx
    · exact Or.inr (chunkStep_carry tok maxT st x l hstep hcarry)

/-- C1 (amended): when no sub-floor buffer is discarded at a section header
(the `dropped` instrumentation stays false), every line of the document
appears in the text of some chunk returned by `chunk_by_sections`. -/
theorem chunk_by_sections_coverage (tok : String → Nat) (maxT : Nat) (text : String)
    (h : (chunkRun tok maxT text).dropped = false) :
    ∀ l ∈ pySplitLines text, ∃ c ∈ chunk_by_sections tok maxT text, l ∈ c.text := by
  intro l hl
  have hrun : chunkRun tok maxT text
      = (pySplitLines text).foldl (chunkStep tok maxT)
          { cursec := none, curart := none, chunk := [], tokens := 0,
            chunks := [], dropped := false } := rfl
  have hcov := chunk_cov_aux tok maxT (pySplitLines text)
    { cursec := none, curart := none, chunk := [], tokens := 0, chunks := [], dropped := false }
    (by rw [← hrun]; exact h) l (Or.inl hl)
  rw [← hrun] at hcov
  rw [show chunk_by_sections tok maxT text
      = (if (chunkRun tok maxT text).chunk.isEmpty then (chunkRun tok maxT text).chunks
         else (chunkRun tok maxT text).chunks
           ++ [mkChunk (chunkRun tok maxT text).cursec (chunkRun tok maxT text).curart
                (chunkRun tok maxT text).chunk (chunkRun tok maxT text).tokens]) from rfl]
  rcases hcov with ⟨c, hc, hlc⟩ | hbuf
  · refine ⟨c, ?_, hlc⟩
    split <;> simp [hc]
  · have hne : ((chunkRun tok maxT text).chunk).isEmpty = false := by
      rcases hchunk : (chunkRun tok maxT text).chunk with _ | _
      · rw [hchunk] at hbuf; simp at hbuf
      · simp [hchunk]
    rw [if_neg (by simp [hne])]
    exact ⟨mkChunk _ _ _ _, List.mem_append_right _ (List.mem_singleton.mpr rfl),
      by simpa [mkChunk] using hbuf⟩

/-- Witness for C1's amended theorem on a concrete two-line document with
no section markers (nothing dropped). -/
theorem chunk_by_sections_coverage_witness :
    (chunkRun lenTok 100 "hello\nworld").dropped = false ∧
    (∃ c ∈ chunk_by_sections lenTok 100 "hello\nworld", "hello" ∈ c.text) :=
  ⟨by decide, chunk_by_sections_coverage lenTok 100 "hello\nworld" (by decide) "hello" (by decide)⟩

/-- Counterexample to C1 as stated: in this document the buffer of section
1-1 holds 13 tokens (below the 100-token floor) when the section 2-2 header
arrives, so the chunker discards it and the line `"x"` appears in no chunk. -/
theorem chunk_by_sections_drops_line :
    ¬ (∀ l ∈ pySplitLines "Section 1-1\nx\nSection 2-2\ny",
        ∃ c ∈ chunk_by_sections lenTok 1000 "Section 1-1\nx\nSection 2-2\ny", l ∈ c.text) := by
  decide

/-- Token-accounting invariant for one step: the running count is the sum
of the buffer's line tokens, every emitted chunk's count is the sum over
its lines and is within `maxT` unless the chunk has at most two lines, and
the same bound holds for the live buffer. -/
theorem chunkStep_tokens (tok : String → Nat) (maxT : Nat) (st : ChunkSt) (line : String)
    (h1 : st.tokens = sumTok tok st.chunk)
    (h2 : ∀ c ∈ st.chunks, c.tokens = sumTok tok c.text ∧ (c.tokens ≤ maxT ∨ c.text.length ≤ 2))
    (h3 : st.tokens ≤ maxT ∨ st.chunk.length ≤ 2) :
    (chunkStep tok maxT st line).tokens = sumTok tok (chunkStep tok maxT st line).chunk
    ∧ (∀ c ∈ (chunkStep tok maxT st line).chunks,
        c.tokens = sumTok tok c.text ∧ (c.tokens ≤ maxT ∨ c.text.length ≤ 2))
    ∧ ((chunkStep tok maxT st line).tokens ≤ maxT
        ∨ (chunkStep tok maxT st line).chunk.length ≤ 2) := by
  have hflushed : (mkChunk st.cursec (stepArt st line) st.chunk st.tokens).tokens
        = sumTok tok (mkChunk st.cursec (stepArt st line) st.chunk st.tokens).text
      ∧ ((mkChunk st.cursec (stepArt st line) st.chunk st.tokens).tokens ≤ maxT
        ∨ (mkChunk st.cursec (stepArt st line) st.chunk st.tokens).text.length ≤ 2) := by
    simp only [mkChunk]
    exact ⟨h1, h3⟩
  by_cases hsec : (secSearch line).isSome = true
  · by_cases hbig : ¬st.chunk = [] ∧ 100 < st.tokens
    · refine ⟨by simp [chunkStep, hsec, hbig, sumTok_cons, sumTok_nil], ?_,
        by simp [chunkStep, hsec, hbig]⟩
      intro c hc
      rw [show (chunkStep tok maxT st line).chunks
          = st.chunks ++ [mkChunk st.cursec (stepArt st line) st.chunk st.tokens] from by
        simp [chunkStep, hsec, hbig]] at hc
      rcases List.mem_append.mp hc with hc | hc
      · exact h2 c hc
      · rw [List.mem_singleton.mp hc]
        exact hflushed
    · refine ⟨by simp [chunkStep, hsec, hbig, sumTok_cons, sumTok_nil], ?_,
        by simp [chunkStep, hsec, hbig]⟩
      intro c hc
      rw [show (chunkStep tok maxT st line).chunks = st.chunks from by
        simp [chunkStep, hsec, hbig]] at hc
      exact h2 c hc
  · by_cases hover : maxT < st.tokens + tok line ∧ ¬st.chunk = []
    · have hchunks : (chunkStep tok maxT st line).chunks
          = st.chunks ++ [mkChunk st.cursec (stepArt st line) st.chunk st.tokens] := by
        rcases hcur : st.cursec with _ | sv
        · simp [chunkStep, hsec, hover, hcur]
        · by_cases hs : sv.isEmpty = true <;> simp [chunkStep, hsec, hover, hcur, hs]
      have hnewchunks : ∀ c ∈ (chunkStep tok maxT st line).chunks,
          c.tokens = sumTok tok c.text ∧ (c.tokens ≤ maxT ∨ c.text.length ≤ 2) := by
        intro c hc
        rw [hchunks] at hc
        rcases List.mem_append.mp hc with hc | hc
        · exact h2 c hc
        · rw [List.mem_singleton.mp hc]
          exact hflushed
      refine ⟨?_, hnewchunks, ?_⟩ <;>
        · rcases hcur : st.cursec with _ | sv
          · simp [chunkStep, hsec, hover, hcur, sumTok_cons, sumTok_nil]
          · by_cases hs : sv.isEmpty = true <;>
              simp [chunkStep, hsec, hover, hcur, hs, sumTok_cons, sumTok_nil]
    · rcases hne : st.chunk with _ | ⟨w, ws⟩
      · refine ⟨?_, ?_, ?_⟩
        · simp [chunkStep, hsec, hover, hne, sumTok_cons, sumTok_nil, h1, hne ▸ h1]
        · intro c hc
          rw [show (chunkStep tok maxT st line).chunks = st.chunks from by
            simp [chunkStep, hsec, hover]] at hc
          exact h2 c hc
        · right
          rw [show (chunkStep tok maxT st line).chunk = st.chunk ++ [line] from by
            simp [chunkStep, hsec, hover]]
          simp [hne]
      · have hle : st.tokens + tok line ≤ maxT := by
          rcases Decidable.not_and_iff_or_not.mp hover with hx | hx
          · omega
          · exact absurd (by simp [hne]) hx
        refine ⟨?_, ?_, Or.inl ?_⟩
        · rw [show (chunkStep tok maxT st line).chunk = st.chunk ++ [line] from by
              simp [chunkStep, hsec, hover],
            show (chunkStep tok maxT st line).tokens = st.tokens + tok line from by
              simp [chunkStep, hsec, hover],
            sumTok_append_single, h1]
        · intro c hc
          rw [show (chunkStep tok maxT st line).chunks = st.chunks from by
            simp [chunkStep, hsec, hover]] at hc
          exact h2 c hc
        · rw [show (chunkStep tok maxT st line).tokens = st.tokens + tok line from by
            simp [chunkStep, hsec, hover]]
          exact hle

/-- Token-accounting invariant for the whole line loop. -/
theorem chunk_tok_aux (tok : String → Nat) (maxT : Nat) :
    ∀ (lines : List String) (st : ChunkSt),
      st.tokens = sumTok tok st.chunk →
      (∀ c ∈ st.chunks, c.tokens = sumTok tok c.text ∧ (c.tokens ≤ maxT ∨ c.text.length ≤ 2)) →
      (st.tokens ≤ maxT ∨ st.chunk.length ≤ 2) →
      (lines.foldl (chunkStep tok maxT) st).tokens
          = sumTok tok (lines.foldl (chunkStep tok maxT) st).chunk
      ∧ (∀ c ∈ (lines.foldl (chunkStep tok maxT) st).chunks,
          c.tokens = sumTok tok c.text ∧ (c.tokens ≤ maxT ∨ c.text.length ≤ 2))
      ∧ ((lines.foldl (chunkStep tok maxT) st).tokens ≤ maxT
          ∨ (lines.foldl (chunkStep tok maxT) st).chunk.length ≤ 2) := by
  intro lines
  induction lines with
  | nil => intro st h1 h2 h3; exact ⟨h1, h2, h3⟩
  | cons x xs ih =>
    intro st h1 h2 h3
    have hstep := chunkStep_tokens tok maxT st x h1 h2 h3
    rw [List.foldl_cons]
    exact ih _ hstep.1 hstep.2.1 hstep.2.2

/-- C2 (amended): every chunk's token count is the sum of its lines' token
counts and is at most `max_tokens`, except for chunks of at most two lines:
a single line exceeding `max_tokens` by itself, or a re-inserted section
header together with the line whose addition overflowed. -/
theorem chunk_by_sections_token_bound (tok : String → Nat) (maxT : Nat) (text : String) :
    ∀ c ∈ chunk_by_sections tok maxT text,
      c.tokens = sumTok tok c.text ∧ (c.tokens ≤ maxT ∨ c.text.length ≤ 2) := by
  intro c hc
  have haux := chunk_tok_aux tok maxT (pySplitLines text)
    { cursec := none, curart := none, chunk := [], tokens := 0, chunks := [], dropped := false }
    (by simp [sumTok_nil]) (by simp) (by simp)
  have hrun : chunkRun tok maxT text
      = (pySplitLines text).foldl (chunkStep tok maxT)
          { cursec := none, curart := none, chunk := [], tokens := 0,
            chunks := [], dropped := false } := rfl
  rw [← hrun] at haux
  rw [show chunk_by_sections tok maxT text
      = (if (chunkRun tok maxT text).chunk.isEmpty then (chunkRun tok maxT text).chunks
         else (chunkRun tok maxT text).chunks
           ++ [mkChunk (chunkRun tok maxT text).cursec (chunkRun tok maxT text).curart
                (chunkRun tok maxT text).chunk (chunkRun tok maxT text).tokens]) from rfl] at hc
  rcases haux with ⟨hq1, hq2, hq3⟩
  split at hc
  · exact hq2 c hc
  · rcases List.mem_append.mp hc with hc | hc
    · exact hq2 c hc
    · rw [List.mem_singleton.mp hc]
      simp only [mkChunk]
      exact ⟨hq1, hq3⟩

/-- Witness for C2's amended theorem at the concrete chunk the concrete
document produces. -/
theorem chunk_by_sections_token_bound_witness :
    chunkHW.tokens = sumTok lenTok chunkHW.text ∧
      (chunkHW.tokens ≤ 100 ∨ chunkHW.text.length ≤ 2) :=
  chunk_by_sections_token_bound lenTok 100 "hello\nworld" chunkHW (by decide)

/-- Counterexample to C2 as stated: with `max_tokens = 30` this document
yields a chunk of 36 tokens (the re-inserted 11-token section header plus
the 25-token overflow line) although no single line of the document exceeds
30 tokens. -/
theorem chunk_by_sections_exceeds_max :
    ¬ (∀ c ∈ chunk_by_sections lenTok 30 "Section 1-2\naaaaaaaaaaaaaaaaaaaaaaaaa",
        c.tokens ≤ 30 ∨ ∃ l ∈ pySplitLines "Section 1-2\naaaaaaaaaaaaaaaaaaaaaaaaa",
          30 < lenTok l) := by
  decide

/-- `Char.ofNat` round-trips on valid codepoints. -/
theorem toNat_ofNat_valid (n : Nat) (h : n.isValidChar) : (Char.ofNat n).toNat = n := by
  rw [Char.ofNat, dif_pos h]
  simp [Char.ofNatAux, Char.toNat, UInt32.toNat, BitVec.toNat_ofNatLt]

/-- Lowercasing a character is idempotent. -/
theorem toLower_toLower (c : Char) : c.toLower.toLower = c.toLower := by
  unfold Char.toLower
  by_cases h : c.toNat ≥ 65 ∧ c.toNat ≤ 90
  · rw [if_pos h]
    have hv : (c.toNat + 32).isValidChar := Or.inl (by omega)
    have ht : (Char.ofNat (c.toNat + 32)).toNat = c.toNat + 32 := toNat_ofNat_valid _ hv
    rw [if_neg (by omega)]
  · rw [if_neg h, if_neg h]

/-- Characters of the words produced by the splitter come from its input or
its accumulator. -/
theorem splitWSAux_mem (P : Char → Prop) :
    ∀ (cs acc : List Char), (∀ c ∈ cs, P c) → (∀ c ∈ acc, P c) →
      ∀ w ∈ splitWSAux cs acc, ∀ c ∈ w, P c := by
  intro cs
  induction cs with
  | nil =>
    intro acc _ hacc w hw c hc
    by_cases h : acc.isEmpty <;> simp [splitWSAux, h] at hw
    subst hw
    exact hacc c (List.mem_reverse.mp hc)
  | cons x xs ih =>
    intro acc hcs hacc w hw c hc
    by_cases hx : wsChar x = true
    · by_cases h : acc.isEmpty
      · rw [show splitWSAux (x :: xs) acc = splitWSAux xs [] from by
          simp [splitWSAux, hx, h]] at hw
        exact ih [] (fun d hd => hcs d (List.mem_cons_of_mem _ hd)) (by simp) w hw c hc
      · rw [show splitWSAux (x :: xs) acc = acc.reverse :: splitWSAux xs [] from by
          simp [splitWSAux, hx, h]] at hw
        rcases List.mem_cons.mp hw with rfl | hw
        · exact hacc c (List.mem_reverse.mp hc)
        · exact ih [] (fun d hd => hcs d (List.mem_cons_of_mem _ hd)) (by simp) w hw c hc
    · rw [show splitWSAux (x :: xs) acc = splitWSAux xs (x :: acc) from by
        simp [splitWSAux, hx]] at hw
      refine ih (x :: acc) (fun d hd => hcs d (List.mem_cons_of_mem _ hd)) ?_ w hw c hc
      intro d hd
      rcases List.mem_cons.mp hd with rfl | hd
      · exact hcs d (List.mem_cons_self _ _)
      · exact hacc d hd

/-- The splitter never produces an empty word. -/
theorem splitWSAux_ne_nil :
    ∀ (cs acc : List Char), ∀ w ∈ splitWSAux cs acc, w ≠ [] := by
  intro cs
  induction cs with
  | nil =>
    intro acc w hw
    by_cases h : acc.isEmpty <;> simp [splitWSAux, h] at hw
    subst hw
    simpa using fun hx => h (by simp [hx])
  | cons x xs ih =>
    intro acc w hw
    by_cases hx : wsChar x = true
    · by_cases h : acc.isEmpty
      · rw [show splitWSAux (x :: xs) acc = splitWSAux xs [] from by
          simp [splitWSAux, hx, h]] at hw
        exact ih [] w hw
      · rw [show splitWSAux (x :: xs) acc = acc.reverse :: splitWSAux xs [] from by
          simp [splitWSAux, hx, h]] at hw
        rcases List.mem_cons.mp hw with rfl | hw
        · simpa using fun hxe => h (by simp [hxe])
        · exact ih [] w hw
    · rw [show splitWSAux (x :: xs) acc = splitWSAux xs (x :: acc) from by
        simp [splitWSAux, hx]] at hw
      exact ih (x :: acc) w hw

/-- Words produced by the splitter contain no whitespace, provided the
accumulator holds none. -/
theorem splitWSAux_not_ws :
    ∀ (cs acc : List Char), (∀ c ∈ acc, wsChar c = false) →
      ∀ w ∈ splitWSAux cs acc, ∀ c ∈ w, wsChar c = false := by
  intro cs
  induction cs with
  | nil =>
    intro acc hacc w hw c hc
    by_cases h : acc.isEmpty <;> simp [splitWSAux, h] at hw
    subst hw
    exact hacc c (List.mem_reverse.mp hc)
  | cons x xs ih =>
    intro acc hacc w hw c hc
    by_cases hx : wsChar x = true
    · by_cases h : acc.isEmpty
      · rw [show splitWSAux (x :: xs) acc = splitWSAux xs [] from by
          simp [splitWSAux, hx, h]] at hw
        exact ih [] (by simp) w hw c hc
      · rw [show splitWSAux (x :: xs) acc = acc.reverse :: splitWSAux xs [] from by
          simp [splitWSAux, hx, h]] at hw
        rcases List.mem_cons.mp hw with rfl | hw
        · exact hacc c (List.mem_reverse.mp hc)
        · exact ih [] (by simp) w hw c hc
    · rw [show splitWSAux (x :: xs) acc = splitWSAux xs (x :: acc) from by
        simp [splitWSAux, hx]] at hw
      refine ih (x :: acc) ?_ w hw c hc
      intro d hd
      rcases List.mem_cons.mp hd with rfl | hd
      · simpa using hx
      · exact hacc d hd

/-- Feeding a whitespace-free word into the splitter moves it (reversed)
into the accumulator. -/
theorem splitWSAux_word_prepend :
    ∀ (w cs acc : List Char), (∀ c ∈ w, wsChar c = false) →
      splitWSAux (w ++ cs) acc = splitWSAux cs (w.reverse ++ acc) := by
  intro w
  induction w with
  | nil => intro cs acc _; simp
  | cons x xs ih =>
    intro cs acc hw
    have hx : wsChar x = false := hw x (List.mem_cons_self _ _)
    rw [List.cons_append,
      show splitWSAux (x :: (xs ++ cs)) acc = splitWSAux (xs ++ cs) (x :: acc) from by
        simp [splitWSAux, hx],
      ih cs (x :: acc) (fun d hd => hw d (List.mem_cons_of_mem _ hd))]
    simp

/-- Splitting the space-join of nonempty whitespace-free words recovers the
word list. -/
theorem splitWS_join :
    ∀ (ws : List (List Char)),
      (∀ w ∈ ws, w ≠ [] ∧ ∀ c ∈ w, wsChar c = false) →
      splitWSChars (joinSpChars ws) = ws := by
  intro ws
  induction ws with
  | nil => intro _; simp [joinSpChars, splitWSChars, splitWSAux]
  | cons w tail ih =>
    intro h
    have hw := h w (List.mem_cons_self _ _)
    rcases tail with _ | ⟨w', rest⟩
    · show splitWSChars (joinSpChars [w]) = [w]
      rw [show joinSpChars [w] = w from rfl]
      unfold splitWSChars
      rw [show w = w ++ ([] : List Char) from by simp,
        splitWSAux_word_prepend w [] [] hw.2]
      have : (w.reverse ++ []).isEmpty = false := by
        rcases hrev : w.reverse with _ | _
        · exact absurd (by simpa using hrev) hw.1
        · simp [hrev]
      simp [splitWSAux, this, hw.1]
    · show splitWSChars (w ++ ' ' :: joinSpChars (w' :: rest)) = w :: w' :: rest
      unfold splitWSChars
      rw [splitWSAux_word_prepend w _ [] hw.2]
      have hne : (w.reverse ++ []).isEmpty = false := by
        rcases hrev : w.reverse with _ | _
        · exact absurd (by simpa using hrev) hw.1
        · simp [hrev]
      rw [show splitWSAux (' ' :: joinSpChars (w' :: rest)) (w.reverse ++ [])
          = (w.reverse ++ []).reverse :: splitWSAux (joinSpChars (w' :: rest)) [] from by
        simp [splitWSAux, hne, wsChar, hw.1]]
      simp only [List.append_nil, List.reverse_reverse]
      exact congrArg (w :: ·) (ih (fun x hx => h x (List.mem_cons_of_mem _ hx)))

/-- A character of a space-join is a character of one of the words or the
space separator. -/
theorem mem_joinSpChars :
    ∀ (ws : List (List Char)) (c : Char), c ∈ joinSpChars ws →
      (∃ w ∈ ws, c ∈ w) ∨ c = ' ' := by
  intro ws
  induction ws with
  | nil => intro c hc; simp [joinSpChars] at hc
  | cons w tail ih =>
    intro c hc
    rcases tail with _ | ⟨w', rest⟩
    · exact Or.inl ⟨w, List.mem_cons_self _ _, hc⟩
    · rw [show joinSpChars (w :: w' :: rest) = w ++ ' ' :: joinSpChars (w' :: rest) from rfl] at hc
      rcases List.mem_append.mp hc with hc | hc
      · exact Or.inl ⟨w, List.mem_cons_self _ _, hc⟩
      · rcases List.mem_cons.mp hc with rfl | hc
        · exact Or.inr rfl
        · rcases ih c hc with ⟨x, hx, hcx⟩ | rfl
          · exact Or.inl ⟨x, List.mem_cons_of_mem _ hx, hcx⟩
          · exact Or.inr rfl

/-- The space-join of a nonempty word list starts with the first word. -/
theorem joinSp_head (w : List Char) (ws : List (List Char)) :
    ∃ t, joinSpChars (w :: ws) = w ++ t := by
  rcases ws with _ | ⟨w', rest⟩
  · exact ⟨[], by simp [joinSpChars]⟩
  · exact ⟨' ' :: joinSpChars (w' :: rest), rfl⟩

/-- The space-join of good words ends in a non-whitespace character. -/
theorem joinSp_last_not_ws :
    ∀ (ws : List (List Char)),
      (∀ w ∈ ws, w ≠ [] ∧ ∀ c ∈ w, wsChar c = false) → ws ≠ [] →
      ∃ c t, (joinSpChars ws).reverse = c :: t ∧ wsChar c = false := by
  intro ws
  induction ws with
  | nil => intro _ h; exact absurd rfl h
  | cons w tail ih =>
    intro h _
    have hw := h w (List.mem_cons_self _ _)
    rcases tail with _ | ⟨w', rest⟩
    · rcases hrev : w.reverse with _ | ⟨c, t⟩
      · exact absurd (by simpa using hrev) hw.1
      · refine ⟨c, t, by simp [joinSpChars, hrev], ?_⟩
        exact hw.2 c (List.mem_reverse.mp (hrev ▸ List.mem_cons_self _ _))
    · rcases ih (fun x hx => h x (List.mem_cons_of_mem _ hx)) (by simp) with ⟨c, t, hrev, hcw⟩
      refine ⟨c, t ++ ' ' :: w.reverse, ?_, hcw⟩
      rw [show joinSpChars (w :: w' :: rest) = w ++ ' ' :: joinSpChars (w' :: rest) from rfl]
      simp [hrev]

/-- Stripping fixes the space-join of good words. -/
theorem trim_join_fix (ws : List (List Char))
    (h : ∀ w ∈ ws, w ≠ [] ∧ ∀ c ∈ w, wsChar c = false) :
    trimChars (joinSpChars ws) = joinSpChars ws := by
  rcases ws with _ | ⟨w, tail⟩
  · simp [joinSpChars, trimChars]
  · have hw := h w (List.mem_cons_self _ _)
    have hdrop : (joinSpChars (w :: tail)).dropWhile wsChar = joinSpChars (w :: tail) := by
      rcases hrcw : w with _ | ⟨c, w''⟩
      · exact absurd hrcw hw.1
      · subst hrcw
        rcases joinSp_head (c :: w'') tail with ⟨t, ht⟩
        rw [ht, List.cons_append, List.dropWhile_cons,
          if_neg (by simp [hw.2 c (List.mem_cons_self _ _)])]
    have hdroprev : (joinSpChars (w :: tail)).reverse.dropWhile wsChar
        = (joinSpChars (w :: tail)).reverse := by
      rcases joinSp_last_not_ws (w :: tail) h (by simp) with ⟨c, t, hrev, hcw⟩
      rw [hrev, List.dropWhile_cons, if_neg (by simp [hcw])]
    unfold trimChars
    rw [hdrop, hdroprev, List.reverse_reverse]

/-- Pointwise-fixed maps are the identity. -/
theorem map_toLower_fix (l : List Char) (h : ∀ c ∈ l, Char.toLower c = c) :
    pyLowerChars l = l := by
  unfold pyLowerChars
  rw [List.map_congr_left h]
  simp

/-- The punctuation filters fix a punctuation-free list. -/
theorem punct_fix (l : List Char)
    (h : ∀ c ∈ l, c ≠ '?' ∧ c ≠ '.' ∧ c ≠ '!' ∧ c ≠ ',' ∧ c ≠ ';') :
    punctFilter l = l := by
  have h1 : l.filter (· != '?') = l :=
    List.filter_eq_self.mpr (fun a ha => by simp [(h a ha).1])
  have h2 : l.filter (· != '.') = l :=
    List.filter_eq_self.mpr (fun a ha => by simp [(h a ha).2.1])
  have h3 : l.filter (· != '!') = l :=
    List.filter_eq_self.mpr (fun a ha => by simp [(h a ha).2.2.1])
  have h4 : l.filter (· != ',') = l :=
    List.filter_eq_self.mpr (fun a ha => by simp [(h a ha).2.2.2.1])
  have h5 : l.filter (· != ';') = l :=
    List.filter_eq_self.mpr (fun a ha => by simp [(h a ha).2.2.2.2])
  unfold punctFilter
  rw [h1, h2, h3, h4, h5]

/-- Characters survive the strip. -/
theorem mem_of_trim (c : Char) (l : List Char) (h : c ∈ trimChars l) : c ∈ l := by
  unfold trimChars at h
  have h1 := List.mem_reverse.mp h
  have h2 := (List.dropWhile_sublist _).subset h1
  have h3 := List.mem_reverse.mp h2
  exact (List.dropWhile_sublist _).subset h3

/-- Characters survive the punctuation filters. -/
theorem mem_of_punct (c : Char) (l : List Char) (h : c ∈ punctFilter l) : c ∈ l := by
  unfold punctFilter at h
  exact List.mem_of_mem_filter (List.mem_of_mem_filter (List.mem_of_mem_filter
    (List.mem_of_mem_filter (List.mem_of_mem_filter h))))

/-- The punctuation characters are absent after the filters. -/
theorem punct_mem (c : Char) (l : List Char) (h : c ∈ punctFilter l) :
    c ≠ '?' ∧ c ≠ '.' ∧ c ≠ '!' ∧ c ≠ ',' ∧ c ≠ ';' := by
  unfold punctFilter at h
  have h5 := List.of_mem_filter h
  have m4 := List.mem_of_mem_filter h
  have h4 := List.of_mem_filter m4
  have m3 := List.mem_of_mem_filter m4
  have h3 := List.of_mem_filter m3
  have m2 := List.mem_of_mem_filter m3
  have h2 := List.of_mem_filter m2
  have m1 := List.mem_of_mem_filter m2
  have h1 := List.of_mem_filter m1
  exact ⟨by simpa using h1, by simpa using h2, by simpa using h3,
    by simpa using h4, by simpa using h5⟩

/-- The words of the normalization pipeline are nonempty, whitespace-free,
lowercase-fixed and punctuation-free. -/
theorem normWords_good (l : List Char) :
    ∀ w ∈ normWordsChars l,
      w ≠ [] ∧ (∀ c ∈ w, wsChar c = false) ∧ (∀ c ∈ w, Char.toLower c = c) ∧
        (∀ c ∈ w, c ≠ '?' ∧ c ≠ '.' ∧ c ≠ '!' ∧ c ≠ ',' ∧ c ≠ ';') := by
  intro w hw
  unfold normWordsChars splitWSChars at hw
  refine ⟨splitWSAux_ne_nil _ [] w hw, splitWSAux_not_ws _ [] (by simp) w hw, ?_, ?_⟩
  · refine splitWSAux_mem (fun c => Char.toLower c = c) _ [] ?_ (by simp) w hw
    intro c hc
    have hc1 := mem_of_trim c _ (mem_of_punct c _ hc)
    unfold pyLowerChars at hc1
    rcases List.mem_map.mp hc1 with ⟨d, _, rfl⟩
    exact toLower_toLower d
  · refine splitWSAux_mem
      (fun c => c ≠ '?' ∧ c ≠ '.' ∧ c ≠ '!' ∧ c ≠ ',' ∧ c ≠ ';') _ [] ?_ (by simp) w hw
    intro c hc
    exact punct_mem c _ hc

/-- The kept words inherit the pipeline-word properties. -/
theorem keepWords_good (l : List Char) :
    ∀ w ∈ keepWordsChars (normWordsChars l),
      w ≠ [] ∧ (∀ c ∈ w, wsChar c = false) ∧ (∀ c ∈ w, Char.toLower c = c) ∧
        (∀ c ∈ w, c ≠ '?' ∧ c ≠ '.' ∧ c ≠ '!' ∧ c ≠ ',' ∧ c ≠ ';') := by
  intro w hw
  exact normWords_good l w (List.mem_of_mem_filter hw)

/-- The stop-word filter is idempotent: filtering the kept words again
keeps all of them. -/
theorem keep_stable (W : List (List Char)) :
    keepWordsChars (keepWordsChars W) = keepWordsChars W := by
  by_cases hk : (keepWordsChars W).length ≤ 3
  · apply List.filter_eq_self.mpr
    intro w _
    simp [hk]
  · have hW : ¬ W.length ≤ 3 := by
      intro hW3
      have heq : keepWordsChars W = W :=
        List.filter_eq_self.mpr (fun a _ => by simp [hW3])
      exact hk (by rw [heq]; exact hW3)
    apply List.filter_eq_self.mpr
    intro w hw
    have hpred := List.of_mem_filter hw
    simp only [hW, decide_False, Bool.or_false] at hpred
    simp at hpred ⊢
    exact Or.inl hpred

/-- Idempotence of the normalization pipeline on character lists. -/
theorem normalizeChars_idem (l : List Char) :
    normalizeChars (normalizeChars l) = normalizeChars l := by
  have hgoodfull := keepWords_good l
  have hgood : ∀ w ∈ keepWordsChars (normWordsChars l),
      w ≠ [] ∧ ∀ c ∈ w, wsChar c = false :=
    fun w hw => ⟨(hgoodfull w hw).1, (hgoodfull w hw).2.1⟩
  have hlower : pyLowerChars (joinSpChars (keepWordsChars (normWordsChars l)))
      = joinSpChars (keepWordsChars (normWordsChars l)) := by
    refine map_toLower_fix _ ?_
    intro c hc
    rcases mem_joinSpChars _ c hc with ⟨w, hw, hcw⟩ | rfl
    · exact (hgoodfull w hw).2.2.1 c hcw
    · decide
  have htrim : trimChars (joinSpChars (keepWordsChars (normWordsChars l)))
      = joinSpChars (keepWordsChars (normWordsChars l)) := trim_join_fix _ hgood
  have hpunct : punctFilter (joinSpChars (keepWordsChars (normWordsChars l)))
      = joinSpChars (keepWordsChars (normWordsChars l)) := by
    refine punct_fix _ ?_
    intro c hc
    rcases mem_joinSpChars _ c hc with ⟨w, hw, hcw⟩ | rfl
    · exact (hgoodfull w hw).2.2.2 c hcw
    · refine ⟨by decide, by decide, by decide, by decide, by decide⟩
  have hsplit : splitWSChars (joinSpChars (keepWordsChars (normWordsChars l)))
      = keepWordsChars (normWordsChars l) := splitWS_join _ hgood
  have hwords : normWordsChars (normalizeChars l) = keepWordsChars (normWordsChars l) := by
    show splitWSChars (punctFilter (trimChars (pyLowerChars
        (joinSpChars (keepWordsChars (normWordsChars l)))))) = keepWordsChars (normWordsChars l)
    rw [hlower, htrim, hpunct, hsplit]
  show joinSpChars (keepWordsChars (normWordsChars (normalizeChars l)))
    = joinSpChars (keepWordsChars (normWordsChars l))
  rw [hwords, keep_stable]

/-- C6: query normalization is idempotent, and the concrete example
normalizes as the spec states. -/
theorem normalize_query_idempotent :
    (∀ q : String, normalize_query (normalize_query q) = normalize_query q)
  ∧ normalize_query "Can I build a shed?" = "can i build shed" := by
  constructor
  · intro q
    exact congrArg String.mk (normalizeChars_idem q.toList)
  · decide
